import Mathlib

/-!
# SDLocker 2.1: the SD card SPI protocol engine of `sdlocker2.c`

A shallow embedding of the driver functions of `src/sdlocker2.c`.

* Bytes (`uint8_t`), 16-bit and 32-bit unsigned values are natural numbers,
  reduced with an explicit `%` where the C type truncates.
* `int8_t` results (response bytes, status codes) are integers, obtained from
  a byte with `toInt8`.
* The SPI bus is the only input/output channel.  Every call of `select()`,
  `deselect()` and `xchg()` appends one event to `SD.trace`; the byte that an
  exchange returns is decided by a `Card`, an arbitrary function of the
  events seen so far and of the byte being sent.
* Global variables of the program are the fields of `SD`.
* `printf_P` output and `_delay_ms` pauses are not modelled.
-/

namespace SDLocker

/-! ## Constants of `sdlocker2.c` -/

def SD_GO_IDLE : Nat := 0x40 + 0
def SD_INIT : Nat := 0x40 + 1
def SD_SEND_IF_COND : Nat := 0x40 + 8
def SD_SEND_CSD : Nat := 0x40 + 9
def SD_SEND_CID : Nat := 0x40 + 10
def SD_SEND_STATUS : Nat := 0x40 + 13
def SD_SET_BLK_LEN : Nat := 0x40 + 16
def SD_READ_BLK : Nat := 0x40 + 17
def SD_LOCK_UNLOCK : Nat := 0x40 + 42
def CMD55 : Nat := 0x40 + 55
def SD_READ_OCR : Nat := 0x40 + 58
def SD_ADV_INIT : Nat := 0xc0 + 41
def SD_PROGRAM_CSD : Nat := 0x40 + 27

def SDCARD_OK : Int := 0
def SDCARD_NO_DETECT : Int := 1
def SDCARD_TIMEOUT : Int := 2
def SDCARD_RWFAIL : Int := -1

def MASK_ERASE : Nat := 0x08
def MASK_LOCK_UNLOCK : Nat := 0x04
def MASK_CLR_PWD : Nat := 0x02
def MASK_SET_PWD : Nat := 0x01

def SDTYPE_UNKNOWN : Nat := 0
def SDTYPE_SD : Nat := 1
def SDTYPE_SDHC : Nat := 2

def SW_LOCK : Nat := 1
def SW_UNLOCK : Nat := 2
def SW_NONE : Nat := 3
def SW_INFO : Nat := 4
def SW_READBLK : Nat := 5
def SW_PWD_LOCK : Nat := 6
def SW_PWD_UNLOCK : Nat := 7
def SW_PWD_CHECK : Nat := 8
def SW_LOCK_CHECK : Nat := 9
def SW_ERASE : Nat := 10

def PATTERN_NO_DETECT : Nat := 0xc800c800
def PATTERN_CANNOT_CHG : Nat := 0xa5000000

def CRC7_POLY : Nat := 0x89

/-- The built-in password `GlobalPWDStr`, the 16 characters of
"Fourth Amendment". -/
def GlobalPWDStr : List Nat :=
  [0x46, 0x6f, 0x75, 0x72, 0x74, 0x68, 0x20, 0x41,
   0x6d, 0x65, 0x6e, 0x64, 0x6d, 0x65, 0x6e, 0x74]

def GLOBAL_PWD_LEN : Nat := 16

/-! ## Integer conversions -/

/-- Conversion of a byte to `int8_t` (two's complement, as avr-gcc does). -/
def toInt8 (n : Nat) : Int :=
  if n % 256 < 128 then ((n % 256 : Nat) : Int) else ((n % 256 : Nat) : Int) - 256

/-- Conversion of an `int8_t` to `uint8_t`. -/
def toUInt8 (i : Int) : Nat := (i % 256).toNat

/-! ## The bus and the program state -/

/-- One observable action on the SPI bus: the chip-select line going low
(`select`), going high (`deselect`), or one full-duplex byte exchange with
the byte sent (`out`) and the byte received (`inp`). -/
inductive Ev where
  | select : Ev
  | deselect : Ev
  | xchg (out inp : Nat) : Ev
  deriving DecidableEq, Repr

/-- The card side of the bus: given every event so far and the byte now being
sent, the byte the card returns (taken modulo 256 by `xchg`). -/
abbrev Card := List Ev → Nat → Nat

/-- The global variables of `sdlocker2.c`, the two LEDs and the bus trace. -/
structure SD where
  sdtype : Nat
  csd : List Nat
  cid : List Nat
  ocr : List Nat
  crctable : List Nat
  block : List Nat
  cardstatus : List Nat
  pwd : List Nat
  pwd_len : Nat
  prev_sw : Nat
  lock_led : Bool
  unlock_led : Bool
  trace : List Ev

/-- The state of the program before `main` runs: zero-initialised globals and
an empty bus trace. -/
def SD.init : SD :=
  { sdtype := 0, csd := List.replicate 16 0, cid := List.replicate 16 0,
    ocr := List.replicate 4 0, crctable := List.replicate 256 0,
    block := List.replicate 512 0, cardstatus := List.replicate 2 0,
    pwd := List.replicate 16 0, pwd_len := 0, prev_sw := 0,
    lock_led := false, unlock_led := false, trace := [] }

/-! ## CRC7 engine -/

/-- The inner `for (j = 1; j < 8; j++)` loop of `GenerateCRCTable`, applied
`n` times to the `uint8_t` entry `t`. -/
def crc_inner : Nat → Nat → Nat
  | 0, t => t
  | n + 1, t =>
    let t1 := (t <<< 1) % 256
    let t2 := if t1 &&& 0x80 ≠ 0 then (t1 ^^^ CRC7_POLY) % 256 else t1
    crc_inner n t2

/-- The value `GenerateCRCTable` stores in `crctable[i]`. -/
def crc_entry (i : Nat) : Nat :=
  crc_inner 7 ((if i &&& 0x80 ≠ 0 then i ^^^ CRC7_POLY else i) % 256)

/-- Function `GenerateCRCTable`: every one of the 256 entries is overwritten with a
value that depends on its index only. -/
def GenerateCRCTable (s : SD) : SD :=
  { s with crctable := (List.range 256).map crc_entry }

/-- Function `AddByteToCRC`: `crctable[(crc << 1) ^ b]`.  The index is an `int` in C and
is not truncated; an index outside the table reads as 0 here. -/
def AddByteToCRC (s : SD) (crc b : Nat) : Nat :=
  s.crctable.getD (((crc % 256) <<< 1) ^^^ (b % 256)) 0

/-- One step of the bit-serial CRC7 of the specification: shift the 7-bit
register left while feeding message bit `bit` into the top, and XOR the
generator `0x89` when the top bit (bit 7) is set. -/
def crc7_bit (crc bit : Nat) : Nat :=
  let t := (crc <<< 1) ^^^ (bit <<< 7)
  if t &&& 0x80 ≠ 0 then t ^^^ 0x89 else t

/-- Direct bit-by-bit CRC7 of one byte `b` from the register value `seed`:
the 8 bits of `b` are processed most significant first. -/
def crc7_bitwise (seed b : Nat) : Nat :=
  ([7, 6, 5, 4, 3, 2, 1, 0].map (fun k => (b >>> k) &&& 1)).foldl crc7_bit seed

/-! ## Bus exchange primitive -/

/-- Append bus events to the trace; nothing else changes. -/
def SD.emit (s : SD) (es : List Ev) : SD := { s with trace := s.trace ++ es }

/-- Function `select()`: drive the chip-select line low. -/
def select (s : SD) : SD := s.emit [Ev.select]

/-- Function `deselect()`: drive the chip-select line high. -/
def deselect (s : SD) : SD := s.emit [Ev.deselect]

/-- Function `xchg(c)`: send the byte `c` (an `unsigned char`) and return the byte
received. -/
def xchg (card : Card) (s : SD) (c : Nat) : Nat × SD :=
  (card s.trace (c % 256) % 256,
   s.emit [Ev.xchg (c % 256) (card s.trace (c % 256) % 256)])

/-- A run of `n` consecutive calls `xchg(0xff)` whose results are dropped. -/
def burn (card : Card) : Nat → SD → SD
  | 0, s => s
  | n + 1, s => burn card n (xchg card s 0xff).2

/-! ## Command transport -/

/-- The response loop of `sd_send_command`:
`for (i=0; i<10; i++) { response = xchg(0xff); if ((response & 0x80) == 0) break; }`
with `n` iterations left and the current content of `response`. -/
def poll_response (card : Card) : Nat → Nat → SD → Nat × SD
  | 0, response, s => (response, s)
  | n + 1, _, s =>
    if (xchg card s 0xff).1 &&& 0x80 = 0 then xchg card s 0xff
    else poll_response card n (xchg card s 0xff).1 (xchg card s 0xff).2

/-- The CRC byte `sd_send_command` appends to a frame. -/
def frame_crc (command : Nat) : Nat :=
  let crc := 0x01
  let crc := if command = SD_GO_IDLE then 0x95 else crc
  let crc := if command = SD_SEND_IF_COND then 0x87 else crc
  crc

/-- The test that decides whether `sd_send_command` deselects the card
before returning. -/
def closes_transaction (command : Nat) : Bool :=
  command ≠ SD_READ_BLK && command ≠ SD_READ_OCR && command ≠ SD_SEND_CSD &&
  command ≠ SD_SEND_STATUS && command ≠ SD_SEND_CID && command ≠ SD_SEND_IF_COND &&
  command ≠ SD_LOCK_UNLOCK && command ≠ SD_PROGRAM_CSD

/-- The framing part of `sd_send_command`: deselect, dummy, select, dummy and
the six frame bytes, up to `xchg(crc)`. -/
def put_frame (card : Card) (s : SD) (command arg : Nat) : SD :=
  let s := deselect s
  let s := (xchg card s 0xff).2
  let s := select s
  let s := (xchg card s 0xff).2
  let s := (xchg card s (command ||| 0x40)).2
  let s := (xchg card s (arg >>> 24)).2
  let s := (xchg card s (arg >>> 16)).2
  let s := (xchg card s (arg >>> 8)).2
  let s := (xchg card s (arg &&& 0xff)).2
  (xchg card s (frame_crc command)).2

/-- The part of `sd_send_command` after the advanced-command test: frame the
command, poll for the response, deselect unless a data phase follows.  The
variable `response` is not assigned before the loop; the loop runs at least
once, so the `0` it starts from here is never returned. -/
def send_frame (card : Card) (s : SD) (command arg : Nat) : Int × SD :=
  let p := poll_response card 10 0 (put_frame card s command arg)
  if closes_transaction command then
    (toInt8 p.1, (xchg card (deselect p.2) 0xff).2)
  else
    (toInt8 p.1, p.2)

/-- Function `sd_send_command(command, arg)`.  The recursive call
`sd_send_command(CMD55, 0)` is `send_frame card s CMD55 0`, because `CMD55`
has its top bit clear and so skips the advanced-command branch. -/
def sd_send_command (card : Card) (s : SD) (command arg : Nat) : Int × SD :=
  let command := command % 256
  let arg := arg % 2 ^ 32
  if command &&& 0x80 ≠ 0 then
    let command := command &&& 0x7f
    let r := send_frame card s CMD55 0
    let response := toUInt8 r.1
    if response > 1 then (toInt8 response, r.2)
    else send_frame card r.2 command arg
  else
    send_frame card s command arg

/-- Loop of `sd_wait_for_data`:
`for (i=0; i<100; i++) { r = xchg(0xff); if (r != 0xff) break; }`
with `n` iterations left and the current content of `r`. -/
def wait_loop (card : Card) : Nat → Nat → SD → Nat × SD
  | 0, r, s => (r, s)
  | n + 1, _, s =>
    if (xchg card s 0xff).1 ≠ 0xff then xchg card s 0xff
    else wait_loop card n (xchg card s 0xff).1 (xchg card s 0xff).2

/-- Function `sd_wait_for_data()`, returning `(int8_t) r`. -/
def sd_wait_for_data (card : Card) (s : SD) : Int × SD :=
  (toInt8 (wait_loop card 100 0 s).1, (wait_loop card 100 0 s).2)

/-! ## Initialization state machine -/

/-- The idle loop of `SDInit`:
`for (i=0; i<0x10; i++) { response = sd_send_command(SD_GO_IDLE, 0); if (response == 1) break; }`
with `n` iterations left and the current content of `response`. -/
def go_idle_loop (card : Card) : Nat → Int → SD → Int × SD
  | 0, response, s => (response, s)
  | n + 1, _, s =>
    if (sd_send_command card s SD_GO_IDLE 0).1 = 1 then sd_send_command card s SD_GO_IDLE 0
    else go_idle_loop card n (sd_send_command card s SD_GO_IDLE 0).1
      (sd_send_command card s SD_GO_IDLE 0).2

/-- The two loops of `SDInit` of the shape
`for (i=20000; i>0; i--) { response = sd_send_command(command, arg); if (response == 0) break; }`
with `n` iterations left and the current content of `response`. -/
def init_loop (card : Card) (command arg : Nat) : Nat → Int → SD → Int × SD
  | 0, response, s => (response, s)
  | n + 1, _, s =>
    if (sd_send_command card s command arg).1 = 0 then sd_send_command card s command arg
    else init_loop card command arg n (sd_send_command card s command arg).1
      (sd_send_command card s command arg).2

/-- Function `SDInit()`.  The idle loop runs at least once, so the `0` that stands for
the unassigned `response` is never tested. -/
def SDInit (card : Card) (s : SD) : Int × SD :=
  let s := { s with sdtype := SDTYPE_UNKNOWN }
  let s := deselect s
  let s := burn card 10 s
  let g := go_idle_loop card 0x10 0 s
  if g.1 ≠ 1 then (SDCARD_NO_DETECT, g.2)
  else
    let s := (sd_send_command card g.2 SD_SET_BLK_LEN 512).2
    let r := sd_send_command card s SD_SEND_IF_COND 0x1aa
    let s :=
      if r.1 = 0x01 then
        let s := burn card 4 r.2
        let l := init_loop card SD_ADV_INIT (1 <<< 30) 20000 r.1 s
        { l.2 with sdtype := SDTYPE_SDHC }
      else
        let o := sd_send_command card r.2 SD_READ_OCR 0
        if o.1 = 0x01 then
          let s := burn card 4 o.2
          let l := init_loop card SD_INIT 0 20000 o.1 s
          let s := (sd_send_command card l.2 SD_SET_BLK_LEN 512).2
          { s with sdtype := SDTYPE_SD }
        else o.2
    (SDCARD_OK, (xchg card s 0xff).2)

/-! ## Register and block access -/

/-- A loop `for (i=0; i<n; i++) buf[i] = xchg(0xff);`: the `n` bytes received,
in order, and the state afterwards. -/
def read_bytes (card : Card) : Nat → SD → List Nat × SD
  | 0, s => ([], s)
  | n + 1, s =>
    ((xchg card s 0xff).1 :: (read_bytes card n (xchg card s 0xff).2).1,
     (read_bytes card n (xchg card s 0xff).2).2)

/-- Function `ReadOCR()`. -/
def ReadOCR (card : Card) (s : SD) : Int × SD :=
  let s := { s with ocr := List.replicate 4 0 }
  if s.sdtype = SDTYPE_SDHC then
    let r := sd_send_command card s SD_SEND_IF_COND 0x1aa
    if r.1 ≠ 0 then (SDCARD_RWFAIL, r.2)
    else
      let b := read_bytes card 4 r.2
      (SDCARD_OK, (xchg card { b.2 with ocr := b.1 } 0xff).2)
  else
    let r := sd_send_command card s SD_READ_OCR 0
    if r.1 ≠ 0x00 then (SDCARD_RWFAIL, r.2)
    else
      let b := read_bytes card 4 r.2
      (SDCARD_OK, (xchg card { b.2 with ocr := b.1 } 0xff).2)

/-- Function `ReadCSD()`. -/
def ReadCSD (card : Card) (s : SD) : Int × SD :=
  let s := { s with csd := List.replicate 16 0 }
  let s := (sd_send_command card s SD_SEND_CSD 0).2
  let w := sd_wait_for_data card s
  if w.1 ≠ toInt8 0xfe then (SDCARD_RWFAIL, w.2)
  else
    let b := read_bytes card 16 w.2
    (SDCARD_OK, (xchg card { b.2 with csd := b.1 } 0xff).2)

/-- Function `ReadCID()`. -/
def ReadCID (card : Card) (s : SD) : Int × SD :=
  let s := { s with cid := List.replicate 16 0 }
  let s := (sd_send_command card s SD_SEND_CID 0).2
  let w := sd_wait_for_data card s
  if w.1 ≠ toInt8 0xfe then (SDCARD_RWFAIL, w.2)
  else
    let b := read_bytes card 16 w.2
    (SDCARD_OK, (xchg card { b.2 with cid := b.1 } 0xff).2)

/-- Function `ReadCardStatus()`. -/
def ReadCardStatus (card : Card) (s : SD) : Int × SD :=
  let r := sd_send_command card s SD_SEND_STATUS 0
  let x := xchg card r.2 0xff
  (SDCARD_OK, (xchg card { x.2 with cardstatus := [toUInt8 r.1, x.1] } 0xff).2)

/-- Function `ReadBlock(blocknum, buffer)`.  The local `addr` is assigned only when
`sdtype == SDTYPE_SD`; `addr0` is the value the unassigned variable happens to
hold otherwise.  The data is stored in the global `block`. -/
def ReadBlock (card : Card) (addr0 : Nat) (s : SD) (blocknum : Nat) : Int × SD :=
  let addr := if s.sdtype = SDTYPE_SD then ((blocknum % 2 ^ 32) <<< 9) % 2 ^ 32 else addr0 % 2 ^ 32
  let r := sd_send_command card s SD_READ_BLK addr
  if toUInt8 r.1 ≠ toUInt8 SDCARD_OK then (SDCARD_RWFAIL, r.2)
  else
    let w := sd_wait_for_data card r.2
    if toUInt8 w.1 ≠ 0xfe then (SDCARD_RWFAIL, w.2)
    else
      let b := read_bytes card 512 w.2
      (SDCARD_OK, (xchg card (xchg card { b.2 with block := b.1 } 0xff).2 0xff).2)

/-! ## CSD rewrite path -/

/-- The busy wait `while (!xchg(0xFF) && (--i)) ;` entered with the 16-bit
counter `i > 0`; the result is the final value of `i` (0 when the budget is
used up). -/
def busy_wait (card : Card) : Nat → SD → Nat × SD
  | 0, s => (0, s)
  | i + 1, s =>
    if (xchg card s 0xff).1 ≠ 0 then (i + 1, (xchg card s 0xff).2)
    else busy_wait card i (xchg card s 0xff).2

/-- The data loop of `WriteCSD`,
`for (i=0; i<15; i++) { xchg(csd[i]); tcrc = AddByteToCRC(tcrc, csd[i]); }`,
over the list of the remaining indices `i`. -/
def csd_loop (card : Card) : List Nat → Nat → SD → Nat × SD
  | [], tcrc, s => (tcrc, s)
  | i :: is, tcrc, s =>
    csd_loop card is (AddByteToCRC s tcrc (s.csd.getD i 0)) (xchg card s (s.csd.getD i 0)).2

/-- Function `WriteCSD()`. -/
def WriteCSD (card : Card) (s : SD) : Int × SD :=
  let r := sd_send_command card s SD_PROGRAM_CSD 0
  if r.1 ≠ 0 then (SDCARD_RWFAIL, r.2)
  else
    let s := (xchg card r.2 0xfe).2
    let l := csd_loop card (List.range 15) 0 s
    let s := (xchg card l.2 ((l.1 <<< 1) + 1)).2
    let s := (xchg card s 0xff).2
    let s := (xchg card s 0xff).2
    let w := busy_wait card 0xffff s
    if w.1 ≠ 0 then (SDCARD_OK, w.2) else (SDCARD_RWFAIL, w.2)

/-! ## Password administration -/

/-- Function `LoadGlobalPWD()`. -/
def LoadGlobalPWD (s : SD) : SD :=
  { s with pwd := GlobalPWDStr, pwd_len := GLOBAL_PWD_LEN }

/-- The block loop of `ModifyPWD`,
`for (i=0; i<512; i++) { if (i < pwd_len) xchg(pwd[i]); else xchg(0xff); }`,
over the list of the remaining indices `i`. -/
def pwd_loop (card : Card) : List Nat → SD → SD
  | [], s => s
  | i :: is, s =>
    pwd_loop card is (xchg card s (if i < s.pwd_len then s.pwd.getD i 0 else 0xff)).2

/-- Function `ModifyPWD(mask)`. -/
def ModifyPWD (card : Card) (s : SD) (mask : Nat) : Int × SD :=
  let mask := (mask % 256) &&& 0x07
  let r := sd_send_command card s SD_LOCK_UNLOCK 0
  if r.1 ≠ 0 then (SDCARD_RWFAIL, r.2)
  else
    let s := (xchg card r.2 0xfe).2
    let s := (xchg card s mask).2
    let s := (xchg card s s.pwd_len).2
    let s := pwd_loop card (List.range 512) s
    let s := (xchg card s 0xff).2
    let s := (xchg card s 0xff).2
    let w := busy_wait card 0xffff s
    if w.1 ≠ 0 then (SDCARD_OK, w.2) else (SDCARD_RWFAIL, w.2)

/-- Function `ForceErase()`. -/
def ForceErase (card : Card) (s : SD) : Int × SD :=
  let s := (sd_send_command card s SD_SET_BLK_LEN 1).2
  let r := sd_send_command card s SD_LOCK_UNLOCK 0
  if r.1 ≠ 0 then (SDCARD_RWFAIL, r.2)
  else
    let s := (xchg card r.2 0xfe).2
    (SDCARD_OK, (xchg card s MASK_ERASE).2)

/-! ## Front end: LEDs and the action dispatcher -/

/-- The loop of `BlinkLED` with `n` iterations left; only the final state of
the lock LED is kept. -/
def blink_loop : Nat → Nat → SD → SD
  | 0, _, s => s
  | n + 1, pattern, s =>
    if pattern &&& 0x80000000 ≠ 0 then
      blink_loop n ((pattern <<< 1) % 2 ^ 32) { s with lock_led := true }
    else if pattern = 0 then { s with lock_led := false }
    else blink_loop n ((pattern <<< 1) % 2 ^ 32) { s with lock_led := false }

/-- Function `BlinkLED(pattern)`. -/
def BlinkLED (pattern : Nat) (s : SD) : SD := blink_loop 32 (pattern % 2 ^ 32) s

/-- Macros `LOCK_LED_OFF; UNLOCK_LED_OFF;` -/
def leds_off (s : SD) : SD := { s with lock_led := false, unlock_led := false }

/-- Function `ShowLockState()`. -/
def ShowLockState (s : SD) : SD :=
  if s.csd.getD 14 0 &&& 0x10 ≠ 0 then { leds_off s with lock_led := true }
  else { leds_off s with unlock_led := true }

/-- The test `cardstatus[1] & 0x01`: the card is password-locked. -/
def card_locked (s : SD) : Bool := s.cardstatus.getD 1 0 &&& 0x01 ≠ 0

/-- Function `ShowCardStatus()`. -/
def ShowCardStatus (card : Card) (s : SD) : SD :=
  let s := (ReadCardStatus card s).2
  if card_locked s then { s with lock_led := true } else { s with unlock_led := true }

/-- Function `ExamineSD()`. -/
def ExamineSD (card : Card) (s : SD) : Int × SD :=
  let o := ReadOCR card s
  let c := ReadCSD card o.2
  let d := if c.1 = SDCARD_OK then ReadCID card c.2 else c
  if d.1 = SDCARD_OK then ReadCardStatus card d.2 else d

/-- Statement `csd[14] = csd[14] | 0x10;` (line 417). -/
def set_temp_lock (s : SD) : SD :=
  { s with csd := s.csd.set 14 ((s.csd.getD 14 0 ||| 0x10) % 256) }

/-- Statement `csd[14] = csd[14] & ~0x10;` (line 453). -/
def clear_temp_lock (s : SD) : SD :=
  { s with csd := s.csd.set 14 ((s.csd.getD 14 0 &&& 0xef) % 256) }

/-- The common body of the `SW_LOCK` and `SW_UNLOCK` branches of
`ProcessSwitch`, which differ in the CSD mutation `mutate` only. -/
def temp_lock_action (card : Card) (mutate : SD → SD) (s : SD) : SD :=
  let r := ReadCSD card (leds_off s)
  if toUInt8 r.1 = 0 then
    let w := WriteCSD card (mutate r.2)
    if toUInt8 w.1 = 0 then
      let c := ReadCSD card (ReadOCR card w.2).2
      if toUInt8 c.1 = 0 then ShowLockState c.2 else c.2
    else BlinkLED PATTERN_CANNOT_CHG w.2
  else BlinkLED PATTERN_NO_DETECT r.2

/-- The `SW_ERASE` branch of `ProcessSwitch`. -/
def erase_action (card : Card) (s : SD) : SD :=
  let s := (ReadCardStatus card (leds_off s)).2
  if card_locked s then
    let s := (ReadCardStatus card (ForceErase card s).2).2
    let s := if card_locked s then (ReadCardStatus card (ForceErase card s).2).2 else s
    if card_locked s then { s with lock_led := true } else { s with unlock_led := true }
  else { s with unlock_led := true }

/-- The `SW_PWD_UNLOCK` branch of `ProcessSwitch`. -/
def pwd_unlock_action (card : Card) (s : SD) : SD :=
  let s := (ReadCardStatus card (leds_off s)).2
  if card_locked s then
    let s := (ReadCardStatus card (ModifyPWD card (LoadGlobalPWD s) MASK_CLR_PWD).2).2
    let s := if card_locked s then (ReadCardStatus card (ModifyPWD card s MASK_CLR_PWD).2).2 else s
    if card_locked s then { s with lock_led := true } else { s with unlock_led := true }
  else { s with unlock_led := true }

/-- The `SW_PWD_LOCK` branch of `ProcessSwitch`. -/
def pwd_lock_action (card : Card) (s : SD) : SD :=
  let s := (ReadCardStatus card (leds_off s)).2
  if !card_locked s then
    let s := (ReadCardStatus card (ModifyPWD card (LoadGlobalPWD s) MASK_SET_PWD).2).2
    let s := (ReadCardStatus card (ModifyPWD card s MASK_LOCK_UNLOCK).2).2
    if !card_locked s then { s with unlock_led := true } else { s with lock_led := true }
  else { s with lock_led := true }

/-- The action selected by `sw` in `ProcessSwitch`, after `SDInit`. -/
def dispatch (card : Card) (addr0 sw : Nat) (s : SD) : SD :=
  if sw = SW_INFO then
    let e := ExamineSD card (leds_off s)
    if toUInt8 e.1 = 0 then ShowCardStatus card e.2 else e.2
  else if sw = SW_LOCK then temp_lock_action card set_temp_lock s
  else if sw = SW_UNLOCK then temp_lock_action card clear_temp_lock s
  else if sw = SW_READBLK then (ReadBlock card addr0 s 0).2
  else if sw = SW_ERASE then erase_action card s
  else if sw = SW_PWD_UNLOCK then pwd_unlock_action card s
  else if sw = SW_PWD_LOCK then pwd_lock_action card s
  else if sw = SW_PWD_CHECK then
    let s := (ReadCardStatus card (leds_off s)).2
    if !card_locked s then { s with unlock_led := true } else { s with lock_led := true }
  else if sw = SW_LOCK_CHECK then
    let c := ReadCSD card (ReadOCR card s).2
    if toUInt8 c.1 = 0 then ShowLockState c.2 else BlinkLED PATTERN_NO_DETECT c.2
  else s

/-- Function `ProcessSwitch()`, with `sw` the value `ReadSwitch()` returned and
`addr0` the content of the unassigned local of `ReadBlock`. -/
def ProcessSwitch (card : Card) (addr0 sw : Nat) (s : SD) : SD :=
  let s1 :=
    if sw % 256 ≠ s.prev_sw ∧ s.prev_sw = SW_NONE then
      let r := SDInit card s
      let s := if toUInt8 r.1 ≠ 0 then BlinkLED PATTERN_NO_DETECT r.2 else r.2
      dispatch card addr0 (sw % 256) s
    else s
  { s1 with prev_sw := sw % 256 }

/-! ## Observing the bus -/

/-- What the host does in a bus event, the byte received left out. -/
inductive Out where
  | cs_low : Out
  | cs_high : Out
  | byte (b : Nat) : Out
  deriving DecidableEq, Repr

/-- The host side of one event. -/
def Ev.out : Ev → Out
  | Ev.select => Out.cs_low
  | Ev.deselect => Out.cs_high
  | Ev.xchg o _ => Out.byte o

/-- The host side of a run of events. -/
def sent (es : List Ev) : List Out := es.map Ev.out

/-- The command frames on the wire, read off the host side of a run.
`select()` is called at one place of the program only, in `sd_send_command`,
where one dummy exchange and the six frame bytes follow it: the frame that
belongs to a chip-select going low is what the host did in the second to
seventh step after it. -/
def frames : List Out → List (List Out)
  | [] => []
  | Out.cs_low :: rest => (rest.take 7).drop 1 :: frames rest
  | Out.cs_high :: rest => frames rest
  | Out.byte _ :: rest => frames rest

/-- Every chip-select going low has its dummy exchange and its six frame
bytes inside the run. -/
def closed : List Out → Prop
  | [] => True
  | Out.cs_low :: rest => 7 ≤ rest.length ∧ closed rest
  | Out.cs_high :: rest => closed rest
  | Out.byte _ :: rest => closed rest

/-- Whether a run is closed can be computed. -/
instance decClosed : (l : List Out) → Decidable (closed l)
  | [] => isTrue trivial
  | Out.cs_low :: rest => @instDecidableAnd _ _ _ (decClosed rest)
  | Out.cs_high :: rest => decClosed rest
  | Out.byte _ :: rest => decClosed rest

/-- The six bytes of the frame for `command` (top bit clear) and `arg`. -/
def cmd_frame (command arg : Nat) : List Out :=
  [Out.byte (command ||| 0x40), Out.byte (arg >>> 24), Out.byte ((arg >>> 16) &&& 0xff),
   Out.byte ((arg >>> 8) &&& 0xff), Out.byte (arg &&& 0xff), Out.byte (frame_crc command)]

/-- The step from `s` to `t` changed nothing but the bus trace, which grew by
events whose host side is `outs`. -/
def Emits (s t : SD) (outs : List Out) : Prop :=
  ∃ es, t = s.emit es ∧ sent es = outs

/-- The step from `s` to `t` grew the bus trace by events whose host side is
`outs` (the registers may have changed as well). -/
def Sends (s t : SD) (outs : List Out) : Prop :=
  ∃ es, t.trace = s.trace ++ es ∧ sent es = outs

/-- Between `s` and `t` the bus saw a closed run of events whose command
frames are, in order, `fs`. -/
def Run (s t : SD) (fs : List (List Out)) : Prop :=
  ∃ outs, Sends s t outs ∧ closed outs ∧ frames outs = fs

/-- How many of the frames `fs` carry the command byte `command`. -/
def attempts (command : Nat) (fs : List (List Out)) : Nat :=
  (fs.filter (fun f => f.head? = some (Out.byte (command ||| 0x40)))).length

/-- The reply of the simulated standard-capacity card, from the host side
`w` of the history.  To the first exchange after a frame it answers: GO_IDLE
with 1, SEND_IF_COND with 5 (illegal command), READ_OCR with 1, CMD1 with 0
when this is the `n`-th CMD1 frame of the history and with 1 otherwise, any
other command with 0.  To every other exchange it answers 0xFF. -/
def sim_reply (n : Nat) (w : List Out) : Nat :=
  match w.reverse with
  | Out.byte _ :: Out.byte _ :: Out.byte _ :: Out.byte _ :: Out.byte _ :: Out.byte c ::
      Out.byte _ :: Out.cs_low :: _ =>
    if c = 0x40 then 1
    else if c = 0x48 then 5
    else if c = 0x7a then 1
    else if c = 0x41 then (if attempts SD_INIT (frames w) = n then 0 else 1)
    else 0
  | _ => 0xff

/-- The simulated standard-capacity card that needs `n` CMD1 attempts. -/
def simCard (n : Nat) : Card := fun hist _ => sim_reply n (sent hist)

/-- A state in which initialization has found a high-capacity card. -/
def sdhcState : SD := { SD.init with sdtype := SDTYPE_SDHC }

/-- A state in which initialization has found a standard-capacity card. -/
def sdState : SD := { SD.init with sdtype := SDTYPE_SD }

/-- A sample state: the CRC table generated and a CSD whose byte 14 is 0. -/
def sampleState : SD :=
  GenerateCRCTable { SD.init with
    csd := [0x00, 0x2e, 0x00, 0x32, 0x5b, 0x5a, 0xa3, 0xa9,
            0xff, 0xff, 0xff, 0x80, 0x16, 0x80, 0x00, 0x91] }

/-- A card that answers `0x00` to every exchange. -/
def zeroCard : Card := fun _ _ => 0


/-- The card-absent bus: every exchange returns `0xFF`. -/
def absentCard : Card := fun _ _ => 0xff

/-- A card that answers `0xFE` to every exchange, so that every data-token
wait yields the start token. -/
def tokenCard : Card := fun _ _ => 0xfe

/-- A state in which the previous switch scan found no switch pressed, so that
the next `ProcessSwitch` acts on its switch value. -/
def idleState : SD := { SD.init with prev_sw := SW_NONE }

@[simp] theorem emit_trace (s : SD) (es : List Ev) : (s.emit es).trace = s.trace ++ es := rfl

@[simp] theorem emit_emit (s : SD) (a b : List Ev) : (s.emit a).emit b = s.emit (a ++ b) := by
  simp [SD.emit, List.append_assoc]

@[simp] theorem emit_nil (s : SD) : s.emit [] = s := by
  simp [SD.emit]

theorem xchg_snd (card : Card) (s : SD) (c : Nat) :
    (xchg card s c).2 = s.emit [Ev.xchg (c % 256) (xchg card s c).1] := rfl

theorem xchg_fst_lt (card : Card) (s : SD) (c : Nat) : (xchg card s c).1 < 256 :=
  Nat.mod_lt _ (by decide)

theorem sent_append (a b : List Ev) : sent (a ++ b) = sent a ++ sent b := by
  simp [sent]

set_option maxRecDepth 20000 in
theorem crc_entry_eq_bitwise : ∀ b, b < 256 → crc_entry b = crc7_bitwise 0 b := by
  decide

theorem crctable_get (s : SD) (i : Nat) (h : i < 256) :
    (GenerateCRCTable s).crctable.getD i 0 = crc_entry i := by
  simp [GenerateCRCTable, List.getD_eq_getElem?_getD, List.getElem?_map, List.getElem?_range h]

/-- C1: after `GenerateCRCTable`, for every byte `b` the table entry
`crctable[b]`, which is what `AddByteToCRC(0, b)` returns, equals the direct
bit-by-bit CRC7 of `b` seeded at 0 with generator 0x89. -/
theorem crc_table_matches_bitwise (s : SD) (b : Nat) (hb : b < 256) :
    (GenerateCRCTable s).crctable[b]? = some (crc7_bitwise 0 b) ∧
    AddByteToCRC (GenerateCRCTable s) 0 b = crc7_bitwise 0 b := by
  constructor
  · simp [GenerateCRCTable, List.getElem?_map, List.getElem?_range hb,
      crc_entry_eq_bitwise b hb]
  · have h0 : ((0 % 256) <<< 1) ^^^ (b % 256) = b := by
      simp [Nat.mod_eq_of_lt hb]
    rw [AddByteToCRC, h0, crctable_get s b hb, crc_entry_eq_bitwise b hb]

theorem crc_table_matches_bitwise_witness :
    (GenerateCRCTable SD.init).crctable[0x40]? = some (crc7_bitwise 0 0x40) ∧
    AddByteToCRC (GenerateCRCTable SD.init) 0 0x40 = crc7_bitwise 0 0x40 :=
  crc_table_matches_bitwise SD.init 0x40 (by decide)



/-! ## The events of one command -/

theorem Emits.refl (s : SD) : Emits s s [] := ⟨[], by simp, rfl⟩

theorem Emits.trans {s t u : SD} {a b : List Out} (h1 : Emits s t a) (h2 : Emits t u b) :
    Emits s u (a ++ b) := by
  obtain ⟨e1, rfl, rfl⟩ := h1
  obtain ⟨e2, rfl, rfl⟩ := h2
  exact ⟨e1 ++ e2, by simp, sent_append e1 e2⟩

theorem emits_select (s : SD) : Emits s (select s) [Out.cs_low] := ⟨[Ev.select], rfl, rfl⟩

theorem emits_deselect (s : SD) : Emits s (deselect s) [Out.cs_high] := ⟨[Ev.deselect], rfl, rfl⟩

theorem emits_xchg (card : Card) (s : SD) (c : Nat) :
    Emits s (xchg card s c).2 [Out.byte (c % 256)] := ⟨_, xchg_snd card s c, rfl⟩

theorem emits_poll_response (card : Card) (n r : Nat) (s : SD) :
    ∃ k, k ≤ n ∧ (0 < n → 0 < k) ∧
      Emits s (poll_response card n r s).2 (List.replicate k (Out.byte 0xff)) := by
  induction n generalizing r s with
  | zero => exact ⟨0, le_refl _, by simp, by simpa [poll_response] using Emits.refl s⟩
  | succ n ih =>
    unfold poll_response
    split
    · exact ⟨1, by omega, by simp, emits_xchg card s 0xff⟩
    · obtain ⟨k, hk, _, he⟩ := ih (xchg card s 0xff).1 (xchg card s 0xff).2
      refine ⟨k + 1, by omega, by simp, ?_⟩
      have := (emits_xchg card s 0xff).trans he
      simpa [List.replicate_succ] using this

/-- The host side of `put_frame`: the two dummies around `select` and the six
frame bytes. -/
theorem emits_put_frame (card : Card) (s : SD) (c a : Nat) :
    Emits s (put_frame card s c a)
      [Out.cs_high, Out.byte 0xff, Out.cs_low, Out.byte 0xff,
        Out.byte ((c ||| 0x40) % 256), Out.byte ((a >>> 24) % 256),
        Out.byte ((a >>> 16) % 256), Out.byte ((a >>> 8) % 256),
        Out.byte ((a &&& 0xff) % 256), Out.byte (frame_crc c % 256)] := by
  have e1 := emits_deselect s
  have e2 := e1.trans (emits_xchg card _ 0xff)
  have e3 := e2.trans (emits_select _)
  have e4 := e3.trans (emits_xchg card _ 0xff)
  have e5 := e4.trans (emits_xchg card _ (c ||| 0x40))
  have e6 := e5.trans (emits_xchg card _ (a >>> 24))
  have e7 := e6.trans (emits_xchg card _ (a >>> 16))
  have e8 := e7.trans (emits_xchg card _ (a >>> 8))
  have e9 := e8.trans (emits_xchg card _ (a &&& 0xff))
  have e10 := e9.trans (emits_xchg card _ (frame_crc c))
  exact e10

/-- The host side of `send_frame`: the frame, between 1 and 10 response
polls, and the closing deselect and dummy unless a data phase follows. -/
theorem emits_send_frame (card : Card) (s : SD) (c a : Nat) :
    ∃ k, 1 ≤ k ∧ k ≤ 10 ∧ Emits s (send_frame card s c a).2
      ([Out.cs_high, Out.byte 0xff, Out.cs_low, Out.byte 0xff,
          Out.byte ((c ||| 0x40) % 256), Out.byte ((a >>> 24) % 256),
          Out.byte ((a >>> 16) % 256), Out.byte ((a >>> 8) % 256),
          Out.byte ((a &&& 0xff) % 256), Out.byte (frame_crc c % 256)]
        ++ List.replicate k (Out.byte 0xff)
        ++ (if closes_transaction c then [Out.cs_high, Out.byte 0xff] else [])) := by
  obtain ⟨k, hk, hpos, ep⟩ := emits_poll_response card 10 0 (put_frame card s c a)
  have e11 := (emits_put_frame card s c a).trans ep
  refine ⟨k, hpos (by decide), hk, ?_⟩
  unfold send_frame
  by_cases hc : closes_transaction c = true
  · have e12 := (e11.trans (emits_deselect _)).trans (emits_xchg card _ 0xff)
    simpa [hc] using e12
  · simpa [hc] using e11

/-! ## Byte arithmetic -/

theorem and_ff (x : Nat) : x &&& 0xff = x % 256 :=
  Nat.and_pow_two_sub_one_eq_mod x 8

set_option maxRecDepth 20000 in
theorem plain_command_bits : ∀ c, c < 0x80 →
    c &&& 0x80 = 0 ∧ (c ||| 0x40) % 256 = c ||| 0x40 := by
  decide

theorem frame_crc_cases (c : Nat) :
    frame_crc c = if c = SD_GO_IDLE then 0x95 else if c = SD_SEND_IF_COND then 0x87 else 0x01 := by
  unfold frame_crc SD_GO_IDLE SD_SEND_IF_COND
  by_cases h1 : c = 0x40 + 0
  · subst h1; decide
  · by_cases h2 : c = 0x40 + 8 <;> simp [h1, h2]

theorem frame_crc_odd (c : Nat) : frame_crc c % 2 = 1 := by
  rw [frame_crc_cases]
  split
  · decide
  · split <;> decide

theorem frame_crc_lt (c : Nat) : frame_crc c % 256 = frame_crc c := by
  rw [frame_crc_cases]
  split
  · decide
  · split <;> decide

/-- For a command with the top bit clear `sd_send_command` is `send_frame`. -/
theorem sd_send_command_plain (card : Card) (s : SD) (c a : Nat) (hc : c < 0x80)
    (ha : a < 2 ^ 32) : sd_send_command card s c a = send_frame card s c a := by
  have h1 : c % 256 = c := Nat.mod_eq_of_lt (by omega)
  have h2 : a % 4294967296 = a := Nat.mod_eq_of_lt ha
  simp [sd_send_command, h1, h2, (plain_command_bits c hc).1]

/-- The events of `sd_send_command` for a command with the top bit clear. -/
theorem emits_sd_send_command (card : Card) (s : SD) (c a : Nat) (hc : c < 0x80)
    (ha : a < 2 ^ 32) :
    ∃ k, 1 ≤ k ∧ k ≤ 10 ∧ Emits s (sd_send_command card s c a).2
      ([Out.cs_high, Out.byte 0xff, Out.cs_low, Out.byte 0xff] ++ cmd_frame c a
        ++ List.replicate k (Out.byte 0xff)
        ++ (if closes_transaction c then [Out.cs_high, Out.byte 0xff] else [])) := by
  obtain ⟨k, h1, h10, he⟩ := emits_send_frame card s c a
  refine ⟨k, h1, h10, ?_⟩
  rw [sd_send_command_plain card s c a hc ha]
  have hb : (a >>> 24) % 256 = a >>> 24 := by
    rw [Nat.shiftRight_eq_div_pow]; omega
  rw [(plain_command_bits c hc).2, hb, frame_crc_lt] at he
  simpa [cmd_frame, and_ff] using he

/-- C7: for a command byte `c` with the top bit clear and a 32-bit argument
`a`, `sd_send_command` changes nothing but the bus, where it sends one dummy
0xFF after `deselect`, one dummy 0xFF after `select`, then exactly the frame
`c | 0x40`, the four bytes of `a` most significant first, and the CRC byte
(0x95 for GO_IDLE, 0x87 for SEND_IF_COND, 0x01 otherwise), followed by 1 to
10 polls of 0xFF and the closing deselect and dummy when no data phase
follows; the CRC byte of every frame is odd. -/
theorem sd_send_command_frame (card : Card) (s : SD) (c a : Nat) (hc : c < 0x80)
    (ha : a < 2 ^ 32) :
    (∃ k, 1 ≤ k ∧ k ≤ 10 ∧ Emits s (sd_send_command card s c a).2
      ([Out.cs_high, Out.byte 0xff, Out.cs_low, Out.byte 0xff,
          Out.byte (c ||| 0x40), Out.byte (a >>> 24), Out.byte ((a >>> 16) &&& 0xff),
          Out.byte ((a >>> 8) &&& 0xff), Out.byte (a &&& 0xff),
          Out.byte (if c = SD_GO_IDLE then 0x95 else if c = SD_SEND_IF_COND then 0x87 else 0x01)]
        ++ List.replicate k (Out.byte 0xff)
        ++ (if closes_transaction c then [Out.cs_high, Out.byte 0xff] else []))) ∧
    (if c = SD_GO_IDLE then 0x95 else if c = SD_SEND_IF_COND then 0x87 else 0x01) % 2 = 1 ∧
    ∀ c1, frame_crc c1 % 2 = 1 := by
  refine ⟨?_, ?_, frame_crc_odd⟩
  · obtain ⟨k, h1, h10, he⟩ := emits_sd_send_command card s c a hc ha
    refine ⟨k, h1, h10, ?_⟩
    rw [← frame_crc_cases]
    simpa [cmd_frame] using he
  · rw [← frame_crc_cases]; exact frame_crc_odd c


theorem sd_send_command_frame_witness :
    (SD_SEND_IF_COND < 0x80 ∧ 0x1aa < 2 ^ 32) ∧
    (∃ k, 1 ≤ k ∧ k ≤ 10 ∧
      Emits SD.init (sd_send_command absentCard SD.init SD_SEND_IF_COND 0x1aa).2
      ([Out.cs_high, Out.byte 0xff, Out.cs_low, Out.byte 0xff,
          Out.byte (SD_SEND_IF_COND ||| 0x40), Out.byte (0x1aa >>> 24),
          Out.byte ((0x1aa >>> 16) &&& 0xff), Out.byte ((0x1aa >>> 8) &&& 0xff),
          Out.byte (0x1aa &&& 0xff),
          Out.byte (if SD_SEND_IF_COND = SD_GO_IDLE then 0x95
            else if SD_SEND_IF_COND = SD_SEND_IF_COND then 0x87 else 0x01)]
        ++ List.replicate k (Out.byte 0xff)
        ++ (if closes_transaction SD_SEND_IF_COND then [Out.cs_high, Out.byte 0xff] else []))) :=
  ⟨⟨by decide, by decide⟩,
   (sd_send_command_frame absentCard SD.init SD_SEND_IF_COND 0x1aa (by decide) (by decide)).1⟩

/-! ## Advanced commands -/

theorem toUInt8_toInt8 (n : Nat) : toUInt8 (toInt8 n) = n % 256 := by
  unfold toUInt8 toInt8
  split <;> omega

theorem toInt8_mod (n : Nat) : toInt8 (n % 256) = toInt8 n := by
  simp [toInt8]

theorem toInt8_toUInt8_toInt8 (n : Nat) : toInt8 (toUInt8 (toInt8 n)) = toInt8 n := by
  rw [toUInt8_toInt8, toInt8_mod]

theorem send_frame_fst (card : Card) (s : SD) (c a : Nat) :
    ∃ n, (send_frame card s c a).1 = toInt8 n := by
  unfold send_frame
  split <;> exact ⟨_, rfl⟩

set_option maxRecDepth 20000 in
theorem advanced_command_bits : ∀ c, c < 0x100 → 0x80 ≤ c →
    c &&& 0x80 ≠ 0 ∧ c &&& 0x7f < 0x80 := by
  decide

/-- C10: for a command byte `c` with the top bit set, `sd_send_command` first
sends CMD55 with argument 0 (frame 0x77 0 0 0 0 0x01).  When the CMD55
response, as an unsigned byte, exceeds 1, the result is that response and the
state CMD55 left: no further frame is emitted.  Otherwise the result is that
of sending the command with the top bit stripped from the state CMD55 left,
whose frame carries `(c & 0x7f) | 0x40`. -/
theorem sd_send_command_advanced (card : Card) (s : SD) (c a : Nat) (hc : 0x80 ≤ c)
    (hc2 : c < 0x100) (ha : a < 2 ^ 32) :
    (∃ k, 1 ≤ k ∧ k ≤ 10 ∧ Emits s (sd_send_command card s CMD55 0).2
      ([Out.cs_high, Out.byte 0xff, Out.cs_low, Out.byte 0xff,
          Out.byte 0x77, Out.byte 0, Out.byte 0, Out.byte 0, Out.byte 0, Out.byte 0x01]
        ++ List.replicate k (Out.byte 0xff) ++ [Out.cs_high, Out.byte 0xff])) ∧
    (1 < toUInt8 (sd_send_command card s CMD55 0).1 →
      sd_send_command card s c a = sd_send_command card s CMD55 0) ∧
    (toUInt8 (sd_send_command card s CMD55 0).1 ≤ 1 →
      sd_send_command card s c a =
        sd_send_command card (sd_send_command card s CMD55 0).2 (c &&& 0x7f) a ∧
      ∃ j, 1 ≤ j ∧ j ≤ 10 ∧
        Emits (sd_send_command card s CMD55 0).2 (sd_send_command card s c a).2
          ([Out.cs_high, Out.byte 0xff, Out.cs_low, Out.byte 0xff,
              Out.byte ((c &&& 0x7f) ||| 0x40), Out.byte (a >>> 24),
              Out.byte ((a >>> 16) &&& 0xff), Out.byte ((a >>> 8) &&& 0xff),
              Out.byte (a &&& 0xff), Out.byte (frame_crc (c &&& 0x7f))]
            ++ List.replicate j (Out.byte 0xff)
            ++ (if closes_transaction (c &&& 0x7f) then [Out.cs_high, Out.byte 0xff]
                else []))) := by
  have h55 : sd_send_command card s CMD55 0 = send_frame card s CMD55 0 :=
    sd_send_command_plain card s CMD55 0 (by decide) (by decide)
  have hbits := advanced_command_bits c hc2 hc
  have h1 : c % 256 = c := Nat.mod_eq_of_lt hc2
  have h2 : a % 4294967296 = a := Nat.mod_eq_of_lt ha
  refine ⟨?_, ?_, ?_⟩
  · obtain ⟨k, hk1, hk10, he⟩ := emits_sd_send_command card s CMD55 0 (by decide) (by decide)
    exact ⟨k, hk1, hk10, by simpa [cmd_frame, CMD55, frame_crc, closes_transaction,
      SD_GO_IDLE, SD_SEND_IF_COND, SD_READ_BLK, SD_READ_OCR, SD_SEND_CSD, SD_SEND_STATUS,
      SD_SEND_CID, SD_LOCK_UNLOCK, SD_PROGRAM_CSD] using he⟩
  · intro hgt
    rw [h55] at hgt ⊢
    obtain ⟨n, hn⟩ := send_frame_fst card s CMD55 0
    have hret : toInt8 (toUInt8 (send_frame card s CMD55 0).1) = (send_frame card s CMD55 0).1 := by
      rw [hn, toInt8_toUInt8_toInt8]
    simp only [sd_send_command, h1, h2, ne_eq, hbits.1, not_false_eq_true, if_true, hgt]
    rw [hret]
  · intro hle
    have hstep : sd_send_command card s c a =
        sd_send_command card (sd_send_command card s CMD55 0).2 (c &&& 0x7f) a := by
      rw [sd_send_command_plain card _ (c &&& 0x7f) a hbits.2 ha, h55]
      rw [h55] at hle
      simp only [sd_send_command, h1, Nat.mod_eq_of_lt ha, ne_eq, hbits.1, not_false_eq_true,
        if_true, Nat.not_lt.mpr hle, if_false]
    refine ⟨hstep, ?_⟩
    obtain ⟨j, hj1, hj10, he⟩ :=
      emits_sd_send_command card (sd_send_command card s CMD55 0).2 (c &&& 0x7f) a hbits.2 ha
    exact ⟨j, hj1, hj10, by rw [hstep]; simpa [cmd_frame] using he⟩

theorem sd_send_command_advanced_witness :
    (0x80 ≤ SD_ADV_INIT ∧ SD_ADV_INIT < 0x100 ∧ 1 <<< 30 < 2 ^ 32) ∧
    sd_send_command absentCard SD.init SD_ADV_INIT (1 <<< 30) =
      sd_send_command absentCard SD.init CMD55 0 ∧
    sd_send_command zeroCard SD.init SD_ADV_INIT (1 <<< 30) =
      sd_send_command zeroCard (sd_send_command zeroCard SD.init CMD55 0).2
        (SD_ADV_INIT &&& 0x7f) (1 <<< 30) :=
  ⟨⟨by decide, by decide, by decide⟩,
   (sd_send_command_advanced absentCard SD.init SD_ADV_INIT (1 <<< 30)
      (by decide) (by decide) (by decide)).2.1 (by decide),
   ((sd_send_command_advanced zeroCard SD.init SD_ADV_INIT (1 <<< 30)
      (by decide) (by decide) (by decide)).2.2 (by decide)).1⟩


/-! ## Data phases -/

theorem emits_busy_wait (card : Card) (n : Nat) (s : SD) :
    ∃ k, k ≤ n ∧ (0 < n → 0 < k) ∧
      Emits s (busy_wait card n s).2 (List.replicate k (Out.byte 0xff)) := by
  induction n generalizing s with
  | zero => exact ⟨0, le_refl _, by simp, by simpa [busy_wait] using Emits.refl s⟩
  | succ n ih =>
    unfold busy_wait
    split
    · exact ⟨1, by omega, by simp, emits_xchg card s 0xff⟩
    · obtain ⟨k, hk, _, he⟩ := ih (xchg card s 0xff).2
      refine ⟨k + 1, by omega, by simp, ?_⟩
      have := (emits_xchg card s 0xff).trans he
      simpa [List.replicate_succ] using this

theorem emits_pwd_loop (card : Card) (is : List Nat) (s : SD) :
    Emits s (pwd_loop card is s)
      (is.map (fun i => Out.byte ((if i < s.pwd_len then s.pwd.getD i 0 else 0xff) % 256))) := by
  induction is generalizing s with
  | nil => simpa [pwd_loop] using Emits.refl s
  | cons i is ih =>
    unfold pwd_loop
    have h := (emits_xchg card s (if i < s.pwd_len then s.pwd.getD i 0 else 0xff)).trans (ih _)
    simpa [xchg, SD.emit] using h

theorem csd_loop_fst (card : Card) (is : List Nat) (tcrc : Nat) (s : SD) :
    (csd_loop card is tcrc s).1 = is.foldl (fun t i => AddByteToCRC s t (s.csd.getD i 0)) tcrc := by
  induction is generalizing tcrc s with
  | nil => rfl
  | cons i is ih =>
    unfold csd_loop
    rw [ih]
    rfl

theorem emits_csd_loop (card : Card) (is : List Nat) (tcrc : Nat) (s : SD) :
    Emits s (csd_loop card is tcrc s).2 (is.map (fun i => Out.byte (s.csd.getD i 0 % 256))) := by
  induction is generalizing tcrc s with
  | nil => simpa [csd_loop] using Emits.refl s
  | cons i is ih =>
    unfold csd_loop
    have h := (emits_xchg card s (s.csd.getD i 0)).trans
      (ih (AddByteToCRC s tcrc (s.csd.getD i 0)) (xchg card s (s.csd.getD i 0)).2)
    simpa [xchg, SD.emit] using h

theorem Emits.congr {s t : SD} {a b : List Out} (h : Emits s t a) (e : a = b) :
    Emits s t b := e ▸ h

theorem Emits.csd {s t : SD} {a : List Out} (h : Emits s t a) : t.csd = s.csd := by
  obtain ⟨es, rfl, _⟩ := h; rfl

theorem Emits.pwd {s t : SD} {a : List Out} (h : Emits s t a) : t.pwd = s.pwd := by
  obtain ⟨es, rfl, _⟩ := h; rfl

theorem Emits.pwd_len {s t : SD} {a : List Out} (h : Emits s t a) : t.pwd_len = s.pwd_len := by
  obtain ⟨es, rfl, _⟩ := h; rfl

theorem Emits.crctable {s t : SD} {a : List Out} (h : Emits s t a) :
    t.crctable = s.crctable := by
  obtain ⟨es, rfl, _⟩ := h; rfl

theorem Emits.sdtype {s t : SD} {a : List Out} (h : Emits s t a) : t.sdtype = s.sdtype := by
  obtain ⟨es, rfl, _⟩ := h; rfl

theorem Emits.sends {s t : SD} {a : List Out} (h : Emits s t a) : Sends s t a := by
  obtain ⟨es, rfl, hs⟩ := h; exact ⟨es, rfl, hs⟩

theorem Sends.chain {s t u : SD} {a b : List Out} (h1 : Sends s t a) (h2 : Sends t u b) :
    Sends s u (a ++ b) := by
  obtain ⟨e1, h1, rfl⟩ := h1
  obtain ⟨e2, h2, rfl⟩ := h2
  exact ⟨e1 ++ e2, by rw [h2, h1, List.append_assoc], sent_append e1 e2⟩

/-- The events of `sd_send_command` for any byte command, without the detail
of the frames: only the bus changes. -/
theorem emits_sd_send_command_any (card : Card) (s : SD) (c a : Nat) :
    ∃ outs, Emits s (sd_send_command card s c a).2 outs := by
  unfold sd_send_command
  simp only []
  split
  · split
    · obtain ⟨k, _, _, he⟩ := emits_send_frame card s CMD55 0
      exact ⟨_, he⟩
    · obtain ⟨k, _, _, he⟩ := emits_send_frame card s CMD55 0
      obtain ⟨j, _, _, he2⟩ := emits_send_frame card (send_frame card s CMD55 0).2
        (c % 256 &&& 0x7f) (a % 2 ^ 32)
      exact ⟨_, he.trans he2⟩
  · obtain ⟨k, _, _, he⟩ := emits_send_frame card s (c % 256) (a % 2 ^ 32)
    exact ⟨_, he⟩


/-! ## Force erase -/

/-- C8: when LOCK_UNLOCK is answered with 0, `ForceErase` performs exactly
two more exchanges, the start token 0xFE and the mask byte 0x08, changes
nothing else and returns success: no length byte, password, padding, dummy
CRC or busy poll.  When LOCK_UNLOCK is answered with anything else it returns
failure in the state the command left. -/
theorem ForceErase_shape (card : Card) (s : SD) :
    ((sd_send_command card (sd_send_command card s SD_SET_BLK_LEN 1).2 SD_LOCK_UNLOCK 0).1 = 0 →
      (ForceErase card s).1 = SDCARD_OK ∧
      Emits (sd_send_command card (sd_send_command card s SD_SET_BLK_LEN 1).2 SD_LOCK_UNLOCK 0).2
        (ForceErase card s).2 [Out.byte 0xfe, Out.byte 0x08]) ∧
    ((sd_send_command card (sd_send_command card s SD_SET_BLK_LEN 1).2 SD_LOCK_UNLOCK 0).1 ≠ 0 →
      ForceErase card s =
        (SDCARD_RWFAIL,
         (sd_send_command card (sd_send_command card s SD_SET_BLK_LEN 1).2 SD_LOCK_UNLOCK 0).2)) := by
  constructor
  · intro h
    simp only [ForceErase, h, ne_eq, not_true_eq_false, if_false, true_and]
    exact (emits_xchg card _ 0xfe).trans (emits_xchg card _ MASK_ERASE)
  · intro h
    simp only [ForceErase, ne_eq, h, not_false_eq_true, if_true]

theorem ForceErase_shape_witness :
    ((ForceErase zeroCard SD.init).1 = SDCARD_OK ∧
      Emits (sd_send_command zeroCard (sd_send_command zeroCard SD.init SD_SET_BLK_LEN 1).2
          SD_LOCK_UNLOCK 0).2
        (ForceErase zeroCard SD.init).2 [Out.byte 0xfe, Out.byte 0x08]) ∧
    ForceErase absentCard SD.init =
      (SDCARD_RWFAIL,
       (sd_send_command absentCard (sd_send_command absentCard SD.init SD_SET_BLK_LEN 1).2
          SD_LOCK_UNLOCK 0).2) :=
  ⟨(ForceErase_shape zeroCard SD.init).1 (by decide),
   (ForceErase_shape absentCard SD.init).2 (by decide)⟩

/-! ## Password administration -/

theorem ite_pair {α β : Type} (c : Prop) [Decidable c] (a b : α) (x : β) :
    (if c then (a, x) else (b, x)) = (if c then a else b, x) := by
  split <;> rfl

theorem payload_shape (a b c d e : Out) (block : List Out) :
    [a] ++ [b] ++ [c] ++ block ++ [d] ++ [e] = [a, b, c] ++ block ++ [d, e] := by
  simp

theorem mask_low_bits (m : Nat) :
    (m % 256) &&& 0x07 = m &&& 0x07 ∧ (m &&& 0x07) % 256 = m &&& 0x07 ∧
    (m &&& 0x07) &&& 0x08 = 0 := by
  refine ⟨?_, ?_, ?_⟩
  · rw [← and_ff, Nat.and_assoc, show (0xff &&& 0x07 : Nat) = 0x07 from by decide]
  · exact Nat.mod_eq_of_lt (lt_trans (Nat.and_lt_two_pow m (by decide : 7 < 2 ^ 3)) (by decide))
  · rw [Nat.and_assoc, show (0x07 &&& 0x08 : Nat) = 0 from by decide, Nat.and_zero]

/-- The events of `ModifyPWD` once LOCK_UNLOCK has been accepted, up to the
start of the busy wait, for any content of the password buffer. -/
theorem ModifyPWD_accepted (card : Card) (s : SD) (m : Nat)
    (hacc : (sd_send_command card s SD_LOCK_UNLOCK 0).1 = 0) :
    ∃ sB, Emits (sd_send_command card s SD_LOCK_UNLOCK 0).2 sB
        ([Out.byte 0xfe, Out.byte (m &&& 0x07), Out.byte (s.pwd_len % 256)]
          ++ (List.range 512).map
              (fun i => Out.byte ((if i < s.pwd_len then s.pwd.getD i 0 else 0xff) % 256))
          ++ [Out.byte 0xff, Out.byte 0xff]) ∧
      ModifyPWD card s m =
        (if (busy_wait card 0xffff sB).1 ≠ 0 then SDCARD_OK else SDCARD_RWFAIL,
         (busy_wait card 0xffff sB).2) := by
  obtain ⟨o, ho⟩ := emits_sd_send_command_any card s SD_LOCK_UNLOCK 0
  have e1 := emits_xchg card (sd_send_command card s SD_LOCK_UNLOCK 0).2 0xfe
  have e2 := e1.trans (emits_xchg card _ ((m % 256) &&& 0x07))
  have e3 := e2.trans (emits_xchg card _
    (xchg card (xchg card (sd_send_command card s SD_LOCK_UNLOCK 0).2 0xfe).2
      ((m % 256) &&& 0x07)).2.pwd_len)
  have e4 := e3.trans (emits_pwd_loop card (List.range 512) _)
  have e5 := (e4.trans (emits_xchg card _ 0xff)).trans (emits_xchg card _ 0xff)
  have hl : (xchg card (xchg card (xchg card (sd_send_command card s SD_LOCK_UNLOCK 0).2
      0xfe).2 ((m % 256) &&& 0x07)).2 (xchg card (xchg card
        (sd_send_command card s SD_LOCK_UNLOCK 0).2 0xfe).2 ((m % 256) &&& 0x07)).2.pwd_len).2.pwd_len
      = s.pwd_len := by rw [e3.pwd_len, ho.pwd_len]
  have hp : (xchg card (xchg card (xchg card (sd_send_command card s SD_LOCK_UNLOCK 0).2
      0xfe).2 ((m % 256) &&& 0x07)).2 (xchg card (xchg card
        (sd_send_command card s SD_LOCK_UNLOCK 0).2 0xfe).2 ((m % 256) &&& 0x07)).2.pwd_len).2.pwd
      = s.pwd := by rw [e3.pwd, ho.pwd]
  have hl2 : (xchg card (xchg card (sd_send_command card s SD_LOCK_UNLOCK 0).2 0xfe).2
      ((m % 256) &&& 0x07)).2.pwd_len = s.pwd_len := by rw [e2.pwd_len, ho.pwd_len]
  refine ⟨_, e5.congr ?_, ?_⟩
  · rw [hl, hp, hl2, (mask_low_bits m).1, (mask_low_bits m).2.1]
    exact payload_shape _ _ _ _ _ _
  unfold ModifyPWD
  rw [if_neg (not_not.mpr hacc)]
  exact ite_pair _ _ _ _


/-- The block loop pads a byte-valued password `p` of length `L` to `N` bytes
with `0xFF`. -/
theorem padded_block (p : List Nat) (L N : Nat) (hL : p.length = L) (hN : L ≤ N)
    (hb : ∀ b ∈ p, b < 256) :
    (List.range N).map (fun i => Out.byte ((if i < L then p.getD i 0 else 0xff) % 256)) =
      p.map Out.byte ++ List.replicate (N - L) (Out.byte 0xff) := by
  apply List.ext_getElem
  · simp [hL]; omega
  · intro i h1 h2
    simp only [List.length_map, List.length_range] at h1
    simp only [List.getElem_map, List.getElem_range]
    by_cases hi : i < L
    · have hi2 : i < p.length := by omega
      rw [List.getElem_append_left (by simpa using hi2)]
      have hlt : p[i] < 256 := hb _ (List.getElem_mem hi2)
      simp [hi, List.getD_eq_getElem?_getD, List.getElem?_eq_getElem hi2, Nat.mod_eq_of_lt hlt]
    · rw [List.getElem_append_right (by simp; omega)]
      simp [hi]


/-- C9: whatever mask `m` the caller passes, once LOCK_UNLOCK has been
accepted the bytes `ModifyPWD` sends are the start token, the mask byte
`m & 0x07`, the length byte, the 512 bytes of the block loop, two dummies and
the busy polls of 0xFF; when LOCK_UNLOCK is refused nothing more is sent.  The
mask byte never has the erase bit 0x08 set. -/
theorem ModifyPWD_mask (card : Card) (s : SD) (m : Nat) :
    ((sd_send_command card s SD_LOCK_UNLOCK 0).1 = 0 →
      ∃ k, Emits (sd_send_command card s SD_LOCK_UNLOCK 0).2 (ModifyPWD card s m).2
        ([Out.byte 0xfe, Out.byte (m &&& 0x07), Out.byte (s.pwd_len % 256)]
          ++ (List.range 512).map
              (fun i => Out.byte ((if i < s.pwd_len then s.pwd.getD i 0 else 0xff) % 256))
          ++ [Out.byte 0xff, Out.byte 0xff] ++ List.replicate k (Out.byte 0xff))) ∧
    ((sd_send_command card s SD_LOCK_UNLOCK 0).1 ≠ 0 →
      ModifyPWD card s m = (SDCARD_RWFAIL, (sd_send_command card s SD_LOCK_UNLOCK 0).2)) ∧
    (m &&& 0x07) &&& 0x08 = 0 := by
  refine ⟨?_, ?_, (mask_low_bits m).2.2⟩
  · intro hacc
    obtain ⟨sB, he, heq⟩ := ModifyPWD_accepted card s m hacc
    obtain ⟨k, _, _, hw⟩ := emits_busy_wait card 0xffff sB
    refine ⟨k, ?_⟩
    rw [heq]
    exact he.trans hw
  · intro h
    unfold ModifyPWD
    rw [if_pos h]

theorem ModifyPWD_mask_witness :
    (∃ k, Emits (sd_send_command zeroCard (LoadGlobalPWD SD.init) SD_LOCK_UNLOCK 0).2
        (ModifyPWD zeroCard (LoadGlobalPWD SD.init) (MASK_ERASE ||| MASK_CLR_PWD)).2
        ([Out.byte 0xfe, Out.byte ((MASK_ERASE ||| MASK_CLR_PWD) &&& 0x07),
            Out.byte ((LoadGlobalPWD SD.init).pwd_len % 256)]
          ++ (List.range 512).map
              (fun i => Out.byte ((if i < (LoadGlobalPWD SD.init).pwd_len
                then (LoadGlobalPWD SD.init).pwd.getD i 0 else 0xff) % 256))
          ++ [Out.byte 0xff, Out.byte 0xff] ++ List.replicate k (Out.byte 0xff))) ∧
    ModifyPWD absentCard (LoadGlobalPWD SD.init) (MASK_ERASE ||| MASK_CLR_PWD) =
      (SDCARD_RWFAIL, (sd_send_command absentCard (LoadGlobalPWD SD.init) SD_LOCK_UNLOCK 0).2) ∧
    ((MASK_ERASE ||| MASK_CLR_PWD) &&& 0x07) &&& 0x08 = 0 :=
  ⟨(ModifyPWD_mask zeroCard (LoadGlobalPWD SD.init) (MASK_ERASE ||| MASK_CLR_PWD)).1 (by decide),
   (ModifyPWD_mask absentCard (LoadGlobalPWD SD.init) (MASK_ERASE ||| MASK_CLR_PWD)).2.1
     (by decide),
   (ModifyPWD_mask absentCard (LoadGlobalPWD SD.init) (MASK_ERASE ||| MASK_CLR_PWD)).2.2⟩

/-- C3 (what the code does): with LOCK_UNLOCK accepted and a 16-byte password
in the buffer, `ModifyPWD` sends after the start token 0xFE the mask byte, the
length byte 16, the 16 password bytes and 496 filler bytes of 0xFF, which is
514 bytes and not 512, then the two dummy CRC bytes; the busy wait starts in
the state `sB` reached after these 517 exchanges. -/
theorem ModifyPWD_block (card : Card) (s : SD) (m : Nat)
    (hacc : (sd_send_command card s SD_LOCK_UNLOCK 0).1 = 0)
    (hlen : s.pwd_len = 16) (hpl : s.pwd.length = 16) (hb : ∀ b ∈ s.pwd, b < 256) :
    ∃ sB, Emits (sd_send_command card s SD_LOCK_UNLOCK 0).2 sB
        ([Out.byte 0xfe]
          ++ ([Out.byte (m &&& 0x07), Out.byte 16] ++ s.pwd.map Out.byte
              ++ List.replicate 496 (Out.byte 0xff))
          ++ [Out.byte 0xff, Out.byte 0xff]) ∧
      ([Out.byte (m &&& 0x07), Out.byte 16] ++ s.pwd.map Out.byte
          ++ List.replicate 496 (Out.byte 0xff)).length = 514 ∧
      ModifyPWD card s m =
        (if (busy_wait card 0xffff sB).1 ≠ 0 then SDCARD_OK else SDCARD_RWFAIL,
         (busy_wait card 0xffff sB).2) := by
  obtain ⟨sB, he, heq⟩ := ModifyPWD_accepted card s m hacc
  refine ⟨sB, he.congr ?_, ?_, heq⟩
  · rw [hlen, padded_block s.pwd 16 512 hpl (by decide) hb,
      show (512 - 16 : Nat) = 496 from rfl]
    generalize List.replicate 496 (Out.byte 0xff) = filler
    simp
  · rw [List.length_append, List.length_append, List.length_replicate, List.length_map, hpl]
    rfl

theorem ModifyPWD_block_witness :
    ∃ sB, Emits (sd_send_command zeroCard (LoadGlobalPWD SD.init) SD_LOCK_UNLOCK 0).2 sB
        ([Out.byte 0xfe]
          ++ ([Out.byte (MASK_SET_PWD &&& 0x07), Out.byte 16]
              ++ (LoadGlobalPWD SD.init).pwd.map Out.byte
              ++ List.replicate 496 (Out.byte 0xff))
          ++ [Out.byte 0xff, Out.byte 0xff]) ∧
      ([Out.byte (MASK_SET_PWD &&& 0x07), Out.byte 16]
          ++ (LoadGlobalPWD SD.init).pwd.map Out.byte
          ++ List.replicate 496 (Out.byte 0xff)).length = 514 ∧
      ModifyPWD zeroCard (LoadGlobalPWD SD.init) MASK_SET_PWD =
        (if (busy_wait zeroCard 0xffff sB).1 ≠ 0 then SDCARD_OK else SDCARD_RWFAIL,
         (busy_wait zeroCard 0xffff sB).2) :=
  ModifyPWD_block zeroCard (LoadGlobalPWD SD.init) MASK_SET_PWD (by decide) (by decide)
    (by decide) (by decide)


/-! ## CSD rewrite -/

set_option maxRecDepth 20000 in
theorem crc_entry_lt : ∀ i, i < 256 → crc_entry i < 0x80 := by
  decide

theorem crc_index_lt (crc b : Nat) (hc : crc < 0x80) :
    ((crc % 256) <<< 1) ^^^ (b % 256) < 256 := by
  have h1 : (crc % 256) <<< 1 < 2 ^ 8 := by
    rw [Nat.shiftLeft_eq]; omega
  have h2 : b % 256 < 2 ^ 8 := Nat.mod_lt _ (by decide)
  exact Nat.xor_lt_two_pow h1 h2

theorem AddByteToCRC_lt (s : SD) (crc b : Nat)
    (ht : s.crctable = (GenerateCRCTable s).crctable) (hc : crc < 0x80) :
    AddByteToCRC s crc b < 0x80 := by
  unfold AddByteToCRC
  rw [ht, crctable_get s _ (crc_index_lt crc b hc)]
  exact crc_entry_lt _ (crc_index_lt crc b hc)

theorem crc_fold_lt (s : SD) (bs : List Nat) (crc : Nat)
    (ht : s.crctable = (GenerateCRCTable s).crctable) (hc : crc < 0x80) :
    bs.foldl (AddByteToCRC s) crc < 0x80 := by
  induction bs generalizing crc with
  | nil => exact hc
  | cons b bs ih => exact ih _ (AddByteToCRC_lt s crc b ht hc)

theorem range_map_getD (l : List Nat) (n : Nat) (h : n ≤ l.length) :
    (List.range n).map (fun i => l.getD i 0) = l.take n := by
  apply List.ext_getElem
  · simp [h]
  · intro i h1 h2
    simp only [List.length_map, List.length_range] at h1
    have hi : i < l.length := by omega
    simp [List.getD_eq_getElem?_getD, List.getElem?_eq_getElem hi]

theorem take_set_last (l : List Nat) (v : Nat) (h : 15 ≤ l.length) :
    (l.set 14 v).take 15 = l.take 14 ++ [v] := by
  apply List.ext_getElem
  · simp; omega
  · intro i h1 h2
    simp only [List.length_take, List.length_set] at h1
    by_cases hi : i = 14
    · subst hi
      simp [List.getElem_append_right]
    · have hi2 : i < 14 := by omega
      rw [List.getElem_append_left (by simp; omega)]
      simp [List.getElem_set, hi, Ne.symm hi]


set_option maxRecDepth 20000 in
theorem crc_byte_format : ∀ c, c < 0x80 → ((c <<< 1) + 1) % 256 = (c <<< 1) ||| 1 := by
  decide

theorem csd_bytes (l : List Nat) (hl : 15 ≤ l.length) (hb : ∀ b ∈ l, b < 256) :
    (List.range 15).map (fun i => Out.byte (l.getD i 0 % 256)) = (l.take 15).map Out.byte := by
  rw [← range_map_getD l 15 hl, List.map_map]
  apply List.map_congr_left
  intro i hi
  have hi2 : i < l.length := by
    have := List.mem_range.mp hi
    omega
  have hlt : l.getD i 0 < 256 := by
    rw [List.getD_eq_getElem?_getD, List.getElem?_eq_getElem hi2]
    exact hb _ (List.getElem_mem hi2)
  show Out.byte (l.getD i 0 % 256) = Out.byte (l.getD i 0)
  rw [Nat.mod_eq_of_lt hlt]

theorem csd_crc (s t : SD) (hc : t.csd = s.csd) (ht : t.crctable = s.crctable)
    (hl : 15 ≤ s.csd.length) :
    (List.range 15).foldl (fun c i => AddByteToCRC t c (t.csd.getD i 0)) 0 =
      (s.csd.take 15).foldl (AddByteToCRC s) 0 := by
  have hA : ∀ c b, AddByteToCRC t c b = AddByteToCRC s c b := by
    intro c b; unfold AddByteToCRC; rw [ht]
  rw [← range_map_getD s.csd 15 hl, List.foldl_map, hc]
  congr 1
  funext c i
  exact hA c _

/-- The events of `WriteCSD` once PROGRAM_CSD has been accepted, up to the
start of the busy wait. -/
theorem WriteCSD_accepted (card : Card) (s : SD)
    (hacc : (sd_send_command card s SD_PROGRAM_CSD 0).1 = 0)
    (hlen : s.csd.length = 16) (hb : ∀ b ∈ s.csd, b < 256)
    (ht : s.crctable = (GenerateCRCTable s).crctable) :
    ∃ sB, Emits (sd_send_command card s SD_PROGRAM_CSD 0).2 sB
        ([Out.byte 0xfe] ++ (s.csd.take 15).map Out.byte
          ++ [Out.byte ((((s.csd.take 15).foldl (AddByteToCRC s) 0) <<< 1) ||| 1),
              Out.byte 0xff, Out.byte 0xff]) ∧
      WriteCSD card s =
        (if (busy_wait card 0xffff sB).1 ≠ 0 then SDCARD_OK else SDCARD_RWFAIL,
         (busy_wait card 0xffff sB).2) := by
  obtain ⟨o, ho⟩ := emits_sd_send_command_any card s SD_PROGRAM_CSD 0
  have e1 := emits_xchg card (sd_send_command card s SD_PROGRAM_CSD 0).2 0xfe
  have e2 := e1.trans (emits_csd_loop card (List.range 15) 0 _)
  have e3 := e2.trans (emits_xchg card _
    (((csd_loop card (List.range 15) 0
      (xchg card (sd_send_command card s SD_PROGRAM_CSD 0).2 0xfe).2).1 <<< 1) + 1))
  have e4 := (e3.trans (emits_xchg card _ 0xff)).trans (emits_xchg card _ 0xff)
  have hcsd : (xchg card (sd_send_command card s SD_PROGRAM_CSD 0).2 0xfe).2.csd = s.csd := by
    rw [e1.csd, ho.csd]
  have htab : (xchg card (sd_send_command card s SD_PROGRAM_CSD 0).2 0xfe).2.crctable
      = s.crctable := by
    rw [e1.crctable, ho.crctable]
  refine ⟨_, e4.congr ?_, ?_⟩
  · rw [csd_loop_fst, csd_crc s _ hcsd htab (by omega), hcsd, csd_bytes s.csd (by omega) hb,
      crc_byte_format _ (crc_fold_lt s _ 0 ht (by decide))]
    simp
  · unfold WriteCSD
    rw [if_neg (not_not.mpr hacc)]
    exact ite_pair _ _ _ _


/-- C4: with PROGRAM_CSD accepted, a 16-byte CSD and the generated CRC table,
`WriteCSD` sends the start token 0xFE, the CSD bytes 0..14 unchanged and in
order, the byte `(c << 1) | 1` where `c < 0x80` is `AddByteToCRC` folded from
0 over exactly those 15 bytes, and two dummies 0xFF 0xFF, and then starts the
busy wait.  When the CSD is the result of the temporary-lock mutation of a CSD
whose byte 14 was 0x00, the 15 bytes are the first 14 of that CSD followed by
0x10, so byte 14 goes out as 0x10 and the CRC covers the modified bytes. -/
theorem WriteCSD_payload (card : Card) (s : SD)
    (hacc : (sd_send_command card s SD_PROGRAM_CSD 0).1 = 0)
    (hlen : s.csd.length = 16) (hb : ∀ b ∈ s.csd, b < 256)
    (ht : s.crctable = (GenerateCRCTable s).crctable) :
    (∃ sB, Emits (sd_send_command card s SD_PROGRAM_CSD 0).2 sB
        ([Out.byte 0xfe] ++ (s.csd.take 15).map Out.byte
          ++ [Out.byte ((((s.csd.take 15).foldl (AddByteToCRC s) 0) <<< 1) ||| 1),
              Out.byte 0xff, Out.byte 0xff]) ∧
      WriteCSD card s =
        (if (busy_wait card 0xffff sB).1 ≠ 0 then SDCARD_OK else SDCARD_RWFAIL,
         (busy_wait card 0xffff sB).2)) ∧
    (s.csd.take 15).foldl (AddByteToCRC s) 0 < 0x80 ∧
    (∀ s0 : SD, s = set_temp_lock s0 → s0.csd.getD 14 0 = 0x00 →
      s.csd.getD 14 0 = 0x10 ∧ s.csd.take 15 = s0.csd.take 14 ++ [0x10]) := by
  refine ⟨WriteCSD_accepted card s hacc hlen hb ht, crc_fold_lt s _ 0 ht (by decide), ?_⟩
  intro s0 hs h14
  have hcsd : s.csd = s0.csd.set 14 0x10 := by
    rw [hs]
    show s0.csd.set 14 ((s0.csd.getD 14 0 ||| 0x10) % 256) = s0.csd.set 14 0x10
    rw [h14]
    rfl
  have hl0 : s0.csd.length = 16 := by
    rw [hcsd, List.length_set] at hlen
    exact hlen
  constructor
  · rw [hcsd, List.getD_eq_getElem?_getD, List.getElem?_set_self (by omega)]
    rfl
  · rw [hcsd]
    exact take_set_last s0.csd 0x10 (by omega)

set_option maxRecDepth 100000 in
theorem WriteCSD_payload_witness :
    (∃ sB, Emits (sd_send_command zeroCard (set_temp_lock sampleState) SD_PROGRAM_CSD 0).2 sB
        ([Out.byte 0xfe] ++ ((set_temp_lock sampleState).csd.take 15).map Out.byte
          ++ [Out.byte (((((set_temp_lock sampleState).csd.take 15).foldl
                (AddByteToCRC (set_temp_lock sampleState)) 0) <<< 1) ||| 1),
              Out.byte 0xff, Out.byte 0xff]) ∧
      WriteCSD zeroCard (set_temp_lock sampleState) =
        (if (busy_wait zeroCard 0xffff sB).1 ≠ 0 then SDCARD_OK else SDCARD_RWFAIL,
         (busy_wait zeroCard 0xffff sB).2)) ∧
    ((set_temp_lock sampleState).csd.take 15).foldl
      (AddByteToCRC (set_temp_lock sampleState)) 0 < 0x80 ∧
    (∀ s0 : SD, set_temp_lock sampleState = set_temp_lock s0 → s0.csd.getD 14 0 = 0x00 →
      (set_temp_lock sampleState).csd.getD 14 0 = 0x10 ∧
      (set_temp_lock sampleState).csd.take 15 = s0.csd.take 14 ++ [0x10]) :=
  WriteCSD_payload zeroCard (set_temp_lock sampleState) (by decide) (by decide) (by decide)
    (by decide)


/-! ## Block read -/

theorem emits_wait_loop (card : Card) (n r : Nat) (s : SD) :
    ∃ k, k ≤ n ∧ (0 < n → 0 < k) ∧
      Emits s (wait_loop card n r s).2 (List.replicate k (Out.byte 0xff)) := by
  induction n generalizing r s with
  | zero => exact ⟨0, le_refl _, by simp, by simpa [wait_loop] using Emits.refl s⟩
  | succ n ih =>
    unfold wait_loop
    split
    · exact ⟨1, by omega, by simp, emits_xchg card s 0xff⟩
    · obtain ⟨k, hk, _, he⟩ := ih (xchg card s 0xff).1 (xchg card s 0xff).2
      refine ⟨k + 1, by omega, by simp, ?_⟩
      have := (emits_xchg card s 0xff).trans he
      simpa [List.replicate_succ] using this

theorem emits_read_bytes (card : Card) (n : Nat) (s : SD) :
    Emits s (read_bytes card n s).2 (List.replicate n (Out.byte 0xff)) ∧
      (read_bytes card n s).1.length = n := by
  induction n generalizing s with
  | zero => exact ⟨by simpa [read_bytes] using Emits.refl s, rfl⟩
  | succ n ih =>
    unfold read_bytes
    obtain ⟨he, hl⟩ := ih (xchg card s 0xff).2
    refine ⟨?_, by simp [hl]⟩
    have := (emits_xchg card s 0xff).trans he
    simpa [List.replicate_succ] using this

theorem emits_sd_wait_for_data (card : Card) (s : SD) :
    ∃ k, 1 ≤ k ∧ k ≤ 100 ∧
      Emits s (sd_wait_for_data card s).2 (List.replicate k (Out.byte 0xff)) := by
  obtain ⟨k, hk, hpos, he⟩ := emits_wait_loop card 100 0 s
  exact ⟨k, hpos (by decide), hk, he⟩

theorem Sends.refl_of_trace {s t : SD} (h : t.trace = s.trace) : Sends s t [] :=
  ⟨[], by simp [h], rfl⟩

theorem sends_set_block (s : SD) (b : List Nat) : Sends s { s with block := b } [] :=
  ⟨[], by simp, rfl⟩

/-- What `ReadBlock` does after its command: some further exchanges. -/
theorem sends_ReadBlock_tail (card : Card) (s : SD) (addr : Nat) :
    ∃ rest, Sends (sd_send_command card s SD_READ_BLK addr).2
      (if toUInt8 (sd_send_command card s SD_READ_BLK addr).1 ≠ toUInt8 SDCARD_OK then
          (SDCARD_RWFAIL, (sd_send_command card s SD_READ_BLK addr).2)
        else if toUInt8 (sd_wait_for_data card (sd_send_command card s SD_READ_BLK addr).2).1
            ≠ 0xfe then
          (SDCARD_RWFAIL, (sd_wait_for_data card (sd_send_command card s SD_READ_BLK addr).2).2)
        else
          (SDCARD_OK,
           (xchg card (xchg card
              { (read_bytes card 512
                  (sd_wait_for_data card (sd_send_command card s SD_READ_BLK addr).2).2).2 with
                block := (read_bytes card 512
                  (sd_wait_for_data card (sd_send_command card s SD_READ_BLK addr).2).2).1 }
              0xff).2 0xff).2)).2 rest := by
  obtain ⟨k, _, _, hw⟩ := emits_sd_wait_for_data card (sd_send_command card s SD_READ_BLK addr).2
  split
  · exact ⟨[], Sends.refl_of_trace rfl⟩
  · split
    · exact ⟨_, hw.sends⟩
    · have hr := (emits_read_bytes card 512
        (sd_wait_for_data card (sd_send_command card s SD_READ_BLK addr).2).2).1
      have h1 := (hw.sends.chain hr.sends).chain (sends_set_block _ (read_bytes card 512
        (sd_wait_for_data card (sd_send_command card s SD_READ_BLK addr).2).2).1)
      exact ⟨_, (h1.chain (emits_xchg card _ 0xff).sends).chain (emits_xchg card _ 0xff).sends⟩


/-- The events of `ReadBlock` when the address it passes to the command is
`addr`. -/
theorem sends_ReadBlock (card : Card) (s : SD) (addr0 blocknum addr : Nat) (ha : addr < 2 ^ 32)
    (hsel : (if s.sdtype = SDTYPE_SD then ((blocknum % 2 ^ 32) <<< 9) % 2 ^ 32
      else addr0 % 2 ^ 32) = addr) :
    ∃ k rest, 1 ≤ k ∧ k ≤ 10 ∧ Sends s (ReadBlock card addr0 s blocknum).2
      ([Out.cs_high, Out.byte 0xff, Out.cs_low, Out.byte 0xff,
          Out.byte 0x51, Out.byte (addr >>> 24), Out.byte ((addr >>> 16) &&& 0xff),
          Out.byte ((addr >>> 8) &&& 0xff), Out.byte (addr &&& 0xff), Out.byte 0x01]
        ++ List.replicate k (Out.byte 0xff) ++ rest) := by
  obtain ⟨k, h1, h10, hc⟩ := emits_sd_send_command card s SD_READ_BLK addr (by decide) ha
  obtain ⟨rest, hrest⟩ := sends_ReadBlock_tail card s addr
  refine ⟨k, rest, h1, h10, ?_⟩
  unfold ReadBlock
  simp only [hsel]
  have hlist : [Out.cs_high, Out.byte 0xff, Out.cs_low, Out.byte 0xff] ++
      cmd_frame SD_READ_BLK addr ++ List.replicate k (Out.byte 0xff) ++
      (if closes_transaction SD_READ_BLK then [Out.cs_high, Out.byte 0xff] else []) ++ rest =
      [Out.cs_high, Out.byte 0xff, Out.cs_low, Out.byte 0xff,
          Out.byte 0x51, Out.byte (addr >>> 24), Out.byte ((addr >>> 16) &&& 0xff),
          Out.byte ((addr >>> 8) &&& 0xff), Out.byte (addr &&& 0xff), Out.byte 0x01]
        ++ List.replicate k (Out.byte 0xff) ++ rest := by
    have hno : closes_transaction SD_READ_BLK = false := by decide
    have hcrc : frame_crc SD_READ_BLK = 0x01 := by decide
    have hcmd : SD_READ_BLK ||| 0x40 = 0x51 := by decide
    simp [cmd_frame, hno, hcrc, hcmd]
  rw [← hlist]
  exact hc.sends.chain hrest

/-- C2 (what the code does): for a standard-capacity card `ReadBlock` sends
READ_SINGLE_BLOCK (0x51) with the address `blocknum * 512`.  For any other
card type, high-capacity included, the address bytes are those of the
unassigned local `addr`, whatever `blocknum` is: the result for `blocknum` is
the result for block 0. -/
theorem ReadBlock_address (card : Card) (s : SD) (blocknum addr0 : Nat)
    (hb : blocknum * 512 < 2 ^ 32) (ha : addr0 < 2 ^ 32) :
    (s.sdtype = SDTYPE_SD →
      ∃ k rest, 1 ≤ k ∧ k ≤ 10 ∧ Sends s (ReadBlock card addr0 s blocknum).2
        ([Out.cs_high, Out.byte 0xff, Out.cs_low, Out.byte 0xff,
            Out.byte 0x51, Out.byte ((blocknum * 512) >>> 24),
            Out.byte (((blocknum * 512) >>> 16) &&& 0xff),
            Out.byte (((blocknum * 512) >>> 8) &&& 0xff),
            Out.byte ((blocknum * 512) &&& 0xff), Out.byte 0x01]
          ++ List.replicate k (Out.byte 0xff) ++ rest)) ∧
    (s.sdtype ≠ SDTYPE_SD →
      (∃ k rest, 1 ≤ k ∧ k ≤ 10 ∧ Sends s (ReadBlock card addr0 s blocknum).2
        ([Out.cs_high, Out.byte 0xff, Out.cs_low, Out.byte 0xff,
            Out.byte 0x51, Out.byte (addr0 >>> 24), Out.byte ((addr0 >>> 16) &&& 0xff),
            Out.byte ((addr0 >>> 8) &&& 0xff), Out.byte (addr0 &&& 0xff), Out.byte 0x01]
          ++ List.replicate k (Out.byte 0xff) ++ rest)) ∧
      ReadBlock card addr0 s blocknum = ReadBlock card addr0 s 0) := by
  constructor
  · intro hs
    apply sends_ReadBlock card s addr0 blocknum (blocknum * 512) hb
    rw [if_pos hs, Nat.shiftLeft_eq]
    omega
  · intro hs
    constructor
    · apply sends_ReadBlock card s addr0 blocknum addr0 ha
      rw [if_neg hs]
      exact Nat.mod_eq_of_lt ha
    · unfold ReadBlock
      simp only [if_neg hs]

theorem ReadBlock_address_witness :
    (5 * 512 < 2 ^ 32 ∧ 512 < 2 ^ 32) ∧
    (∃ k rest, 1 ≤ k ∧ k ≤ 10 ∧ Sends sdState (ReadBlock absentCard 512 sdState 5).2
        ([Out.cs_high, Out.byte 0xff, Out.cs_low, Out.byte 0xff,
            Out.byte 0x51, Out.byte ((5 * 512) >>> 24),
            Out.byte (((5 * 512) >>> 16) &&& 0xff),
            Out.byte (((5 * 512) >>> 8) &&& 0xff),
            Out.byte ((5 * 512) &&& 0xff), Out.byte 0x01]
          ++ List.replicate k (Out.byte 0xff) ++ rest)) ∧
    (∃ k rest, 1 ≤ k ∧ k ≤ 10 ∧ Sends sdhcState (ReadBlock absentCard 512 sdhcState 0).2
        ([Out.cs_high, Out.byte 0xff, Out.cs_low, Out.byte 0xff,
            Out.byte 0x51, Out.byte (512 >>> 24), Out.byte ((512 >>> 16) &&& 0xff),
            Out.byte ((512 >>> 8) &&& 0xff), Out.byte (512 &&& 0xff), Out.byte 0x01]
          ++ List.replicate k (Out.byte 0xff) ++ rest)) ∧
    ReadBlock absentCard 512 sdhcState 5 = ReadBlock absentCard 512 sdhcState 0 ∧
    sent (ReadBlock absentCard 512 sdhcState 0).2.trace =
      [Out.cs_high, Out.byte 0xff, Out.cs_low, Out.byte 0xff,
        Out.byte 0x51, Out.byte 0x00, Out.byte 0x00, Out.byte 0x02, Out.byte 0x00, Out.byte 0x01]
      ++ List.replicate 10 (Out.byte 0xff) :=
  ⟨⟨by decide, by decide⟩,
   (ReadBlock_address absentCard sdState 5 512 (by decide) (by decide)).1 (by decide),
   ((ReadBlock_address absentCard sdhcState 0 512 (by decide) (by decide)).2 (by decide)).1,
   ((ReadBlock_address absentCard sdhcState 5 512 (by decide) (by decide)).2 (by decide)).2,
   by decide⟩

/-! ## Reading frames off the wire -/

theorem frames_append (a b : List Out) (h : closed a) :
    frames (a ++ b) = frames a ++ frames b := by
  induction a with
  | nil => rfl
  | cons x a ih =>
    cases x with
    | cs_low =>
      obtain ⟨hlen, hc⟩ := h
      show ((a ++ b).take 7).drop 1 :: frames (a ++ b) = ((a.take 7).drop 1 :: frames a) ++ frames b
      rw [List.take_append_of_le_length hlen, ih hc]
      rfl
    | cs_high => exact ih h
    | byte v => exact ih h

theorem closed_append (a b : List Out) (ha : closed a) (hb : closed b) : closed (a ++ b) := by
  induction a with
  | nil => exact hb
  | cons x a ih =>
    cases x with
    | cs_low =>
      obtain ⟨hlen, hc⟩ := ha
      refine ⟨?_, ih hc⟩
      show 7 ≤ (a ++ b).length
      rw [List.length_append]; omega
    | cs_high => exact ih ha
    | byte v => exact ih ha

theorem quiet_replicate (k v : Nat) :
    closed (List.replicate k (Out.byte v)) ∧ frames (List.replicate k (Out.byte v)) = [] := by
  induction k with
  | zero => exact ⟨trivial, rfl⟩
  | succ k ih => exact ih

theorem quiet_close (c : Nat) :
    closed (if closes_transaction c then [Out.cs_high, Out.byte 0xff] else []) ∧
    frames (if closes_transaction c then [Out.cs_high, Out.byte 0xff] else []) = [] := by
  split
  · exact ⟨trivial, rfl⟩
  · exact ⟨trivial, rfl⟩

theorem frames_cmd_block (c a : Nat) (tail : List Out) (ht : frames tail = []) :
    frames ([Out.cs_high, Out.byte 0xff, Out.cs_low, Out.byte 0xff] ++ (cmd_frame c a ++ tail)) =
      [cmd_frame c a] := by
  simp [frames, cmd_frame, ht]

/-- One command on the wire is a closed run that holds exactly its frame. -/
theorem emits_cmd (card : Card) (s : SD) (c a : Nat) (hc : c < 0x80) (ha : a < 2 ^ 32) :
    ∃ B, Emits s (sd_send_command card s c a).2 B ∧ closed B ∧ frames B = [cmd_frame c a] := by
  obtain ⟨k, _, _, he⟩ := emits_sd_send_command card s c a hc ha
  refine ⟨_, he, ?_, ?_⟩
  · have hq := closed_append _ _ (quiet_replicate k 0xff).1 (quiet_close c).1
    rw [List.append_assoc, List.append_assoc]
    exact ⟨by simp [cmd_frame], hq⟩
  · have hq : frames (List.replicate k (Out.byte 0xff) ++
        (if closes_transaction c then [Out.cs_high, Out.byte 0xff] else [])) = [] := by
      rw [frames_append _ _ (quiet_replicate k 0xff).1, (quiet_replicate k 0xff).2,
        (quiet_close c).2]
      rfl
    rw [List.append_assoc, List.append_assoc]
    exact frames_cmd_block c a _ hq

theorem emits_burn (card : Card) (n : Nat) (s : SD) :
    Emits s (burn card n s) (List.replicate n (Out.byte 0xff)) := by
  induction n generalizing s with
  | zero => exact Emits.refl s
  | succ n ih =>
    unfold burn
    have := (emits_xchg card s 0xff).trans (ih _)
    simpa [List.replicate_succ] using this

theorem sends_set_sdtype (s : SD) (v : Nat) : Sends s { s with sdtype := v } [] :=
  ⟨[], by simp, rfl⟩

theorem attempts_append (c : Nat) (a b : List (List Out)) :
    attempts c (a ++ b) = attempts c a + attempts c b := by
  simp [attempts]

theorem Run.seq {s t u : SD} {a b : List (List Out)} (h1 : Run s t a) (h2 : Run t u b) :
    Run s u (a ++ b) := by
  obtain ⟨o1, hs1, hc1, hf1⟩ := h1
  obtain ⟨o2, hs2, hc2, hf2⟩ := h2
  exact ⟨o1 ++ o2, hs1.chain hs2, closed_append _ _ hc1 hc2, by rw [frames_append _ _ hc1, hf1, hf2]⟩

theorem Run.rfl_of_trace {s t : SD} (h : t.trace = s.trace) : Run s t [] :=
  ⟨[], Sends.refl_of_trace h, trivial, rfl⟩

theorem run_command (card : Card) (s : SD) (c a : Nat) (hc : c < 0x80) (ha : a < 2 ^ 32) :
    Run s (sd_send_command card s c a).2 [cmd_frame c a] := by
  obtain ⟨B, hB, hBc, hBf⟩ := emits_cmd card s c a hc ha
  exact ⟨B, hB.sends, hBc, hBf⟩

theorem run_xchg (card : Card) (s : SD) (c : Nat) : Run s (xchg card s c).2 [] :=
  ⟨_, (emits_xchg card s c).sends, trivial, rfl⟩

theorem run_deselect (s : SD) : Run s (deselect s) [] :=
  ⟨_, (emits_deselect s).sends, trivial, rfl⟩

theorem run_burn (card : Card) (n : Nat) (s : SD) : Run s (burn card n s) [] :=
  ⟨_, (emits_burn card n s).sends, (quiet_replicate n 0xff).1, (quiet_replicate n 0xff).2⟩

theorem run_set_sdtype (s : SD) (v : Nat) : Run s { s with sdtype := v } [] :=
  Run.rfl_of_trace rfl

/-! ## Initialization: no card -/

/-- When GO_IDLE is never answered with 1 the idle loop uses its whole budget:
`n` iterations send `n` GO_IDLE frames. -/
theorem go_idle_loop_never (card : Card)
    (h : ∀ t, (sd_send_command card t SD_GO_IDLE 0).1 ≠ 1) (n : Nat) (r : Int) (s : SD)
    (hr : r ≠ 1) :
    (go_idle_loop card n r s).1 ≠ 1 ∧
    (go_idle_loop card n r s).2.sdtype = s.sdtype ∧
    Run s (go_idle_loop card n r s).2 (List.replicate n (cmd_frame SD_GO_IDLE 0)) := by
  induction n generalizing r s with
  | zero => exact ⟨hr, rfl, Run.rfl_of_trace rfl⟩
  | succ n ih =>
    unfold go_idle_loop
    rw [if_neg (h s)]
    obtain ⟨hne, hty, hrun⟩ := ih (sd_send_command card s SD_GO_IDLE 0).1
      (sd_send_command card s SD_GO_IDLE 0).2 (h s)
    obtain ⟨o, ho⟩ := emits_sd_send_command_any card s SD_GO_IDLE 0
    exact ⟨hne, by rw [hty, ho.sdtype],
      (run_command card s SD_GO_IDLE 0 (by decide) (by decide)).seq hrun⟩

/-- C5: on a bus where GO_IDLE_STATE is never answered with 1, `SDInit`
returns `SDCARD_NO_DETECT` with the card type `SDTYPE_UNKNOWN`, and the frames
it put on the bus are exactly 16 GO_IDLE frames (0x40 0 0 0 0 0x95) and no other
command. -/
theorem SDInit_no_card (card : Card) (s : SD)
    (h : ∀ t, (sd_send_command card t SD_GO_IDLE 0).1 ≠ 1) :
    (SDInit card s).1 = SDCARD_NO_DETECT ∧
    (SDInit card s).2.sdtype = SDTYPE_UNKNOWN ∧
    Run s (SDInit card s).2 (List.replicate 16
      [Out.byte 0x40, Out.byte 0, Out.byte 0, Out.byte 0, Out.byte 0, Out.byte 0x95]) := by
  have e := ((run_set_sdtype s SDTYPE_UNKNOWN).seq (run_deselect _)).seq
    (run_burn card 10 _)
  obtain ⟨hne, hty, hrun⟩ := go_idle_loop_never card h 0x10 0
    (burn card 10 (deselect { s with sdtype := SDTYPE_UNKNOWN })) (by decide)
  have hres : SDInit card s = (SDCARD_NO_DETECT,
      (go_idle_loop card 0x10 0
        (burn card 10 (deselect { s with sdtype := SDTYPE_UNKNOWN }))).2) := by
    unfold SDInit
    simp only []
    rw [if_pos hne]
  rw [hres]
  refine ⟨rfl, ?_, e.seq hrun⟩
  rw [hty, (emits_burn card 10 _).sdtype]
  rfl

theorem absent_poll (n r : Nat) (s : SD) :
    (poll_response absentCard (n + 1) r s).1 = 0xff := by
  induction n generalizing r s with
  | zero => simp [poll_response, xchg, absentCard]
  | succ n ih =>
    unfold poll_response
    rw [if_neg (by simp [xchg, absentCard])]
    exact ih _ _

/-- On the card-absent bus every command gets the response 0xFF, which is
-1 as an `int8_t`. -/
theorem absent_response (t : SD) (c a : Nat) : (send_frame absentCard t c a).1 = -1 := by
  unfold send_frame
  simp only []
  split <;> (rw [absent_poll 9]; rfl)

theorem absent_never_idle (t : SD) : (sd_send_command absentCard t SD_GO_IDLE 0).1 ≠ 1 := by
  rw [sd_send_command_plain absentCard t SD_GO_IDLE 0 (by decide) (by decide), absent_response]
  decide

theorem SDInit_no_card_witness :
    (SDInit absentCard SD.init).1 = SDCARD_NO_DETECT ∧
    (SDInit absentCard SD.init).2.sdtype = SDTYPE_UNKNOWN ∧
    Run SD.init (SDInit absentCard SD.init).2 (List.replicate 16
      [Out.byte 0x40, Out.byte 0, Out.byte 0, Out.byte 0, Out.byte 0, Out.byte 0x95]) :=
  SDInit_no_card absentCard SD.init absent_never_idle

/-! ## Initialization: standard-capacity card -/

theorem go_idle_loop_first (card : Card) (h : ∀ t, (sd_send_command card t SD_GO_IDLE 0).1 = 1)
    (n : Nat) (r : Int) (s : SD) :
    go_idle_loop card (n + 1) r s = sd_send_command card s SD_GO_IDLE 0 := by
  unfold go_idle_loop
  rw [if_pos (h s)]

theorem attempts_cmd1 : attempts SD_INIT [cmd_frame SD_INIT 0] = 1 := by decide

/-- The CMD1 loop: entered after `a < n` CMD1 frames with a budget of at least
`n - a` iterations, it sends exactly `n - a` more CMD1 frames and ends on the
response 0. -/
theorem init_loop_cmd1 (card : Card) (s : SD) (n : Nat)
    (hBusy : ∀ t fs, Run s t fs → attempts SD_INIT fs + 1 < n →
      (sd_send_command card t SD_INIT 0).1 ≠ 0)
    (hDone : ∀ t fs, Run s t fs → attempts SD_INIT fs + 1 = n →
      (sd_send_command card t SD_INIT 0).1 = 0)
    (m : Nat) (r : Int) (t : SD) (fs : List (List Out)) (hrun : Run s t fs)
    (hlt : attempts SD_INIT fs < n) (hm : n - attempts SD_INIT fs ≤ m) :
    Run t (init_loop card SD_INIT 0 m r t).2
      (List.replicate (n - attempts SD_INIT fs) (cmd_frame SD_INIT 0)) := by
  induction m generalizing r t fs with
  | zero => omega
  | succ m ih =>
    have hc := run_command card t SD_INIT 0 (by decide) (by decide)
    unfold init_loop
    by_cases hlast : attempts SD_INIT fs + 1 = n
    · rw [if_pos (hDone t fs hrun hlast)]
      have h1 : n - attempts SD_INIT fs = 1 := by omega
      rw [h1]
      exact hc
    · have hlt2 : attempts SD_INIT fs + 1 < n := by omega
      rw [if_neg (hBusy t fs hrun hlt2)]
      have hat : attempts SD_INIT (fs ++ [cmd_frame SD_INIT 0]) = attempts SD_INIT fs + 1 := by
        rw [attempts_append, attempts_cmd1]
      have := ih (sd_send_command card t SD_INIT 0).1 (sd_send_command card t SD_INIT 0).2
        (fs ++ [cmd_frame SD_INIT 0]) (hrun.seq hc) (by omega) (by omega)
      have h2 := hc.seq this
      rw [hat] at h2
      have h3 : n - attempts SD_INIT fs = (n - (attempts SD_INIT fs + 1)) + 1 := by omega
      rw [h3, List.replicate_succ]
      exact h2

/-- C6: let the card answer GO_IDLE_STATE with 1, SEND_IF_COND with something
other than 1, READ_OCR with 1, and CMD1 with a non-zero response on attempts
1..n-1 and with 0 on attempt n, attempts being counted over the frames sent
since `SDInit` started, with 1 ≤ n ≤ 20000.  Then `SDInit` returns success
with the card type `SDTYPE_SD`, and the frames it sends are GO_IDLE,
SET_BLK_LEN 512, SEND_IF_COND 0x1AA, READ_OCR, exactly `n` times CMD1, and
SET_BLK_LEN 512. -/
theorem SDInit_standard_capacity (card : Card) (s : SD) (n : Nat)
    (hn1 : 1 ≤ n) (hn : n ≤ 20000)
    (hIdle : ∀ t, (sd_send_command card t SD_GO_IDLE 0).1 = 1)
    (hIf : ∀ t, (sd_send_command card t SD_SEND_IF_COND 0x1aa).1 ≠ 1)
    (hOcr : ∀ t, (sd_send_command card t SD_READ_OCR 0).1 = 1)
    (hBusy : ∀ t fs, Run s t fs → attempts SD_INIT fs + 1 < n →
      (sd_send_command card t SD_INIT 0).1 ≠ 0)
    (hDone : ∀ t fs, Run s t fs → attempts SD_INIT fs + 1 = n →
      (sd_send_command card t SD_INIT 0).1 = 0) :
    (SDInit card s).1 = SDCARD_OK ∧
    (SDInit card s).2.sdtype = SDTYPE_SD ∧
    Run s (SDInit card s).2
      ([[Out.byte 0x40, Out.byte 0, Out.byte 0, Out.byte 0, Out.byte 0, Out.byte 0x95],
        [Out.byte 0x50, Out.byte 0, Out.byte 0, Out.byte 0x02, Out.byte 0, Out.byte 0x01],
        [Out.byte 0x48, Out.byte 0, Out.byte 0, Out.byte 0x01, Out.byte 0xaa, Out.byte 0x87],
        [Out.byte 0x7a, Out.byte 0, Out.byte 0, Out.byte 0, Out.byte 0, Out.byte 0x01]]
        ++ List.replicate n
          [Out.byte 0x41, Out.byte 0, Out.byte 0, Out.byte 0, Out.byte 0, Out.byte 0x01]
        ++ [[Out.byte 0x50, Out.byte 0, Out.byte 0, Out.byte 0x02, Out.byte 0, Out.byte 0x01]]) := by
  have hrA := ((run_set_sdtype s SDTYPE_UNKNOWN).seq (run_deselect _)).seq
    (run_burn card 10 _)
  have hr1 := hrA.seq (run_command card _ SD_GO_IDLE 0 (by decide) (by decide))
  have hr2 := hr1.seq (run_command card _ SD_SET_BLK_LEN 512 (by decide) (by decide))
  have hr3 := hr2.seq (run_command card _ SD_SEND_IF_COND 0x1aa (by decide) (by decide))
  have hr4 := hr3.seq (run_command card _ SD_READ_OCR 0 (by decide) (by decide))
  have hr5 := hr4.seq (run_burn card 4 _)
  have h0 : attempts SD_INIT ([] ++ [] ++ [] ++ [cmd_frame SD_GO_IDLE 0]
      ++ [cmd_frame SD_SET_BLK_LEN 512] ++ [cmd_frame SD_SEND_IF_COND 0x1aa]
      ++ [cmd_frame SD_READ_OCR 0] ++ []) = 0 := by decide
  have hl := fun r => init_loop_cmd1 card s n hBusy hDone 20000 r _ _ hr5
    (by rw [h0]; omega) (by rw [h0]; omega)
  rw [h0] at hl
  have hr8 := fun r => (((hr5.seq (hl r)).seq
    (run_command card _ SD_SET_BLK_LEN 512 (by decide) (by decide))).seq
    (run_set_sdtype _ SDTYPE_SD)).seq (run_xchg card _ 0xff)
  unfold SDInit
  simp only []
  rw [go_idle_loop_first card hIdle 15 0 _, if_neg (not_not.mpr (hIdle _)), if_neg (hIf _),
    if_pos (hOcr _)]
  refine ⟨rfl, rfl, ?_⟩
  simp only [List.nil_append, List.append_nil, List.append_assoc] at hr8
  exact hr8 _

/-! ## The simulated standard-capacity card -/

theorem sent_trace_of_emits {s t : SD} {outs : List Out} (h : Emits s t outs) :
    sent t.trace = sent s.trace ++ outs := by
  obtain ⟨es, rfl, rfl⟩ := h
  exact sent_append _ _

theorem sent_put_frame (card : Card) (t : SD) (c a : Nat) (hc : c < 0x80) (ha : a < 2 ^ 32) :
    sent (put_frame card t c a).trace =
      sent t.trace ++ [Out.cs_high, Out.byte 0xff, Out.cs_low, Out.byte 0xff] ++ cmd_frame c a := by
  have he := emits_put_frame card t c a
  have hb : (a >>> 24) % 256 = a >>> 24 := by
    rw [Nat.shiftRight_eq_div_pow]; omega
  rw [(plain_command_bits c hc).2, hb, frame_crc_lt] at he
  rw [sent_trace_of_emits he]
  simp [cmd_frame, and_ff]

/-- When the first poll after the frame is answered with `v < 0x80`, that is
the response of the command. -/
theorem first_poll_response (card : Card) (t : SD) (c a v : Nat) (hc : c < 0x80)
    (ha : a < 2 ^ 32) (hv : card (put_frame card t c a).trace 0xff = v) (hv7 : v < 0x80) :
    (sd_send_command card t c a).1 = (v : Int) := by
  have hx : (xchg card (put_frame card t c a) 0xff).1 = v := by
    show card (put_frame card t c a).trace (0xff % 256) % 256 = v
    rw [show (0xff % 256 : Nat) = 0xff from rfl, hv]
    omega
  have hp : (poll_response card (9 + 1) 0 (put_frame card t c a)).1 = v := by
    unfold poll_response
    rw [hx, if_pos (plain_command_bits v hv7).1, hx]
  have hi : toInt8 v = (v : Int) := by
    unfold toInt8
    rw [if_pos (by omega)]
    congr 1
    omega
  rw [sd_send_command_plain card t c a hc ha]
  unfold send_frame
  simp only []
  split <;> (rw [show (10 : Nat) = 9 + 1 from rfl, hp]; exact hi)

theorem sim_reply_frame (n : Nat) (w : List Out) (c a : Nat) :
    sim_reply n (w ++ [Out.cs_high, Out.byte 0xff, Out.cs_low, Out.byte 0xff] ++ cmd_frame c a) =
      if c ||| 0x40 = 0x40 then 1
      else if c ||| 0x40 = 0x48 then 5
      else if c ||| 0x40 = 0x7a then 1
      else if c ||| 0x40 = 0x41 then
        (if attempts SD_INIT
            (frames (w ++ [Out.cs_high, Out.byte 0xff, Out.cs_low, Out.byte 0xff] ++ cmd_frame c a))
            = n then 0 else 1)
      else 0 := by
  unfold sim_reply
  simp [cmd_frame, List.reverse_append]

theorem sim_idle (n : Nat) (t : SD) : (sd_send_command (simCard n) t SD_GO_IDLE 0).1 = 1 := by
  apply first_poll_response (simCard n) t SD_GO_IDLE 0 1 (by decide) (by decide) _ (by decide)
  show sim_reply n (sent (put_frame (simCard n) t SD_GO_IDLE 0).trace) = 1
  rw [sent_put_frame _ t _ _ (by decide) (by decide), sim_reply_frame]
  rfl

theorem sim_if_cond (n : Nat) (t : SD) :
    (sd_send_command (simCard n) t SD_SEND_IF_COND 0x1aa).1 ≠ 1 := by
  have : (sd_send_command (simCard n) t SD_SEND_IF_COND 0x1aa).1 = ((5 : Nat) : Int) := by
    apply first_poll_response (simCard n) t SD_SEND_IF_COND 0x1aa 5 (by decide) (by decide) _
      (by decide)
    show sim_reply n (sent (put_frame (simCard n) t SD_SEND_IF_COND 0x1aa).trace) = 5
    rw [sent_put_frame _ t _ _ (by decide) (by decide), sim_reply_frame]
    rfl
  rw [this]
  decide

theorem sim_read_ocr (n : Nat) (t : SD) : (sd_send_command (simCard n) t SD_READ_OCR 0).1 = 1 := by
  apply first_poll_response (simCard n) t SD_READ_OCR 0 1 (by decide) (by decide) _ (by decide)
  show sim_reply n (sent (put_frame (simCard n) t SD_READ_OCR 0).trace) = 1
  rw [sent_put_frame _ t _ _ (by decide) (by decide), sim_reply_frame]
  rfl

/-- The simulated card answers the CMD1 frame that makes the count of CMD1
frames since the empty trace equal to `n` with 0, and the others with 1. -/
theorem sim_cmd1 (n : Nat) (t : SD) (fs : List (List Out)) (hrun : Run SD.init t fs) :
    (sd_send_command (simCard n) t SD_INIT 0).1 =
      if attempts SD_INIT fs + 1 = n then 0 else 1 := by
  obtain ⟨outs, ⟨es, htr, hes⟩, hcl, hfr⟩ := hrun
  have hsent : sent t.trace = outs := by
    rw [htr]
    show sent ([] ++ es) = outs
    rw [List.nil_append, hes]
  have hfrm : frames (outs ++ [Out.cs_high, Out.byte 0xff, Out.cs_low, Out.byte 0xff]
      ++ cmd_frame SD_INIT 0) = fs ++ [cmd_frame SD_INIT 0] := by
    rw [List.append_assoc, frames_append _ _ hcl, hfr]
    rfl
  have hreply : sim_reply n (sent (put_frame (simCard n) t SD_INIT 0).trace) =
      if attempts SD_INIT fs + 1 = n then 0 else 1 := by
    rw [sent_put_frame _ t _ _ (by decide) (by decide), hsent, sim_reply_frame, hfrm,
      attempts_append, attempts_cmd1]
    rfl
  by_cases h : attempts SD_INIT fs + 1 = n
  · rw [if_pos h] at hreply ⊢
    exact first_poll_response (simCard n) t SD_INIT 0 0 (by decide) (by decide) hreply (by decide)
  · rw [if_neg h] at hreply ⊢
    exact first_poll_response (simCard n) t SD_INIT 0 1 (by decide) (by decide) hreply (by decide)

theorem SDInit_standard_capacity_witness :
    (SDInit (simCard 5) SD.init).1 = SDCARD_OK ∧
    (SDInit (simCard 5) SD.init).2.sdtype = SDTYPE_SD ∧
    Run SD.init (SDInit (simCard 5) SD.init).2
      ([[Out.byte 0x40, Out.byte 0, Out.byte 0, Out.byte 0, Out.byte 0, Out.byte 0x95],
        [Out.byte 0x50, Out.byte 0, Out.byte 0, Out.byte 0x02, Out.byte 0, Out.byte 0x01],
        [Out.byte 0x48, Out.byte 0, Out.byte 0, Out.byte 0x01, Out.byte 0xaa, Out.byte 0x87],
        [Out.byte 0x7a, Out.byte 0, Out.byte 0, Out.byte 0, Out.byte 0, Out.byte 0x01]]
        ++ List.replicate 5
          [Out.byte 0x41, Out.byte 0, Out.byte 0, Out.byte 0, Out.byte 0, Out.byte 0x01]
        ++ [[Out.byte 0x50, Out.byte 0, Out.byte 0, Out.byte 0x02, Out.byte 0, Out.byte 0x01]]) :=
  SDInit_standard_capacity (simCard 5) SD.init 5 (by decide) (by decide)
    (sim_idle 5) (sim_if_cond 5) (sim_read_ocr 5)
    (fun t fs hrun hlt => by rw [sim_cmd1 5 t fs hrun, if_neg (by omega)]; decide)
    (fun t fs hrun heq => by rw [sim_cmd1 5 t fs hrun, if_pos heq])

/-! ## CRC table bounds -/

theorem crctable_entry (s : SD) (i : Nat) (h : i < 256) :
    (GenerateCRCTable s).crctable[i]? = some (crc_entry i) := by
  simp [GenerateCRCTable, List.getElem?_map, List.getElem?_range h]

theorem crctable_length (s : SD) : (GenerateCRCTable s).crctable.length = 256 := by
  simp [GenerateCRCTable]

/-- C16: with the table built by `GenerateCRCTable` in `crctable`, the table
has 256 entries, each below 0x80; for every byte sequence `bs` the running CRC
seeded at 0 and extended with `AddByteToCRC` is below 0x80, and for every next
byte `b` the index `(crc << 1) ^ b` that `AddByteToCRC` computes is below 256,
so the lookup is the table entry at that index and never the out-of-table
default; this holds for the CRC that `WriteCSD` accumulates over its 15 CSD
bytes. -/
theorem crc_lookup_in_bounds (card : Card) (s : SD)
    (ht : s.crctable = (GenerateCRCTable s).crctable) (bs : List Nat) (b : Nat) :
    s.crctable.length = 256 ∧
    (∀ i, i < 256 → ∃ v, s.crctable[i]? = some v ∧ v < 0x80) ∧
    bs.foldl (AddByteToCRC s) 0 < 0x80 ∧
    (((bs.foldl (AddByteToCRC s) 0) % 256) <<< 1) ^^^ (b % 256) < s.crctable.length ∧
    s.crctable[(((bs.foldl (AddByteToCRC s) 0) % 256) <<< 1) ^^^ (b % 256)]? =
      some (AddByteToCRC s (bs.foldl (AddByteToCRC s) 0) b) ∧
    (csd_loop card (List.range 15) 0 s).1 < 0x80 := by
  have hfold := crc_fold_lt s bs 0 ht (by decide)
  have hidx := crc_index_lt (bs.foldl (AddByteToCRC s) 0) b hfold
  have hlen : s.crctable.length = 256 := by rw [ht]; exact crctable_length s
  refine ⟨hlen, ?_, hfold, by rw [hlen]; exact hidx, ?_, ?_⟩
  · intro i hi
    exact ⟨crc_entry i, by rw [ht]; exact crctable_entry s i hi, crc_entry_lt i hi⟩
  · have hget : s.crctable[(((bs.foldl (AddByteToCRC s) 0) % 256) <<< 1) ^^^ (b % 256)]? =
        some (crc_entry ((((bs.foldl (AddByteToCRC s) 0) % 256) <<< 1) ^^^ (b % 256))) := by
      rw [ht]; exact crctable_entry s _ hidx
    generalize bs.foldl (AddByteToCRC s) 0 = crc at hget ⊢
    rw [hget]
    unfold AddByteToCRC
    rw [List.getD_eq_getElem?_getD, hget]
    rfl
  · rw [csd_loop_fst, ← List.foldl_map]
    exact crc_fold_lt s _ 0 ht (by decide)

set_option maxRecDepth 100000 in
theorem crc_lookup_in_bounds_witness :
    sampleState.crctable.length = 256 ∧
    (∀ i, i < 256 → ∃ v, sampleState.crctable[i]? = some v ∧ v < 0x80) ∧
    [0x40, 0x00, 0x7f].foldl (AddByteToCRC sampleState) 0 < 0x80 ∧
    ((([0x40, 0x00, 0x7f].foldl (AddByteToCRC sampleState) 0) % 256) <<< 1) ^^^ (0xff % 256)
      < sampleState.crctable.length ∧
    sampleState.crctable[((([0x40, 0x00, 0x7f].foldl (AddByteToCRC sampleState) 0) % 256) <<< 1)
        ^^^ (0xff % 256)]? =
      some (AddByteToCRC sampleState ([0x40, 0x00, 0x7f].foldl (AddByteToCRC sampleState) 0) 0xff) ∧
    (csd_loop zeroCard (List.range 15) 0 sampleState).1 < 0x80 :=
  crc_lookup_in_bounds zeroCard sampleState (by decide) [0x40, 0x00, 0x7f] 0xff

/-! ## The busy poll -/

/-- The busy wait entered with the counter `n > 0` makes `k ≤ n` exchanges of
0xFF: the first `k - 1` receive 0 and the last receives `v`.  When `v` is not
0 the counter is left at `n + 1 - k`; when `v` is 0 all `n` exchanges were
made and the counter is 0. -/
theorem busy_wait_run (card : Card) (n : Nat) (s : SD) (hn : 0 < n) :
    ∃ k v, 1 ≤ k ∧ k ≤ n ∧ v < 256 ∧
      (busy_wait card n s).2 =
        s.emit ((List.replicate (k - 1) 0 ++ [v]).map (fun r => Ev.xchg 0xff r)) ∧
      (v ≠ 0 → (busy_wait card n s).1 = n + 1 - k) ∧
      (v = 0 → k = n ∧ (busy_wait card n s).1 = 0) := by
  induction n generalizing s with
  | zero => omega
  | succ m ih =>
    unfold busy_wait
    by_cases hr : (xchg card s 0xff).1 = 0
    · rw [if_neg (not_not.mpr hr)]
      by_cases hm : m = 0
      · subst hm
        refine ⟨1, 0, le_refl _, le_refl _, by decide, ?_, fun h => absurd rfl h, fun _ => ⟨rfl, rfl⟩⟩
        show (xchg card s 0xff).2 = s.emit [Ev.xchg 0xff 0]
        rw [xchg_snd, hr]
      · obtain ⟨k, v, hk1, hkm, hv, hst, hnz, hz⟩ := ih (xchg card s 0xff).2 (by omega)
        refine ⟨k + 1, v, by omega, by omega, hv, ?_, ?_, ?_⟩
        · rw [hst, xchg_snd, hr, emit_emit]
          have hk : k + 1 - 1 = (k - 1) + 1 := by omega
          rw [hk, List.replicate_succ]
          rfl
        · intro h
          rw [hnz h]
          omega
        · intro h
          obtain ⟨h1, h2⟩ := hz h
          exact ⟨by omega, h2⟩
    · rw [if_pos hr]
      refine ⟨1, (xchg card s 0xff).1, le_refl _, by omega, xchg_fst_lt card s 0xff, ?_,
        fun _ => by simp, fun h => absurd h hr⟩
      exact xchg_snd card s 0xff

/-- With PROGRAM_CSD accepted, `WriteCSD` makes 19 exchanges (start token, 15
CSD bytes, CRC byte, two dummies) and then starts the busy wait. -/
theorem WriteCSD_busy (card : Card) (s : SD)
    (hacc : (sd_send_command card s SD_PROGRAM_CSD 0).1 = 0) :
    ∃ sB payload, payload.length = 19 ∧
      Emits (sd_send_command card s SD_PROGRAM_CSD 0).2 sB payload ∧
      WriteCSD card s =
        (if (busy_wait card 0xffff sB).1 ≠ 0 then SDCARD_OK else SDCARD_RWFAIL,
         (busy_wait card 0xffff sB).2) := by
  have e1 := emits_xchg card (sd_send_command card s SD_PROGRAM_CSD 0).2 0xfe
  have e2 := e1.trans (emits_csd_loop card (List.range 15) 0 _)
  have e3 := e2.trans (emits_xchg card _
    (((csd_loop card (List.range 15) 0
      (xchg card (sd_send_command card s SD_PROGRAM_CSD 0).2 0xfe).2).1 <<< 1) + 1))
  have e4 := (e3.trans (emits_xchg card _ 0xff)).trans (emits_xchg card _ 0xff)
  refine ⟨_, _, ?_, e4, ?_⟩
  · simp
  · unfold WriteCSD
    rw [if_neg (not_not.mpr hacc)]
    exact ite_pair _ _ _ _

/-- With LOCK_UNLOCK accepted, `ModifyPWD` makes 517 exchanges (start token,
mask, length, the 512 bytes of the block loop, two dummies) and then starts
the busy wait. -/
theorem ModifyPWD_busy (card : Card) (s : SD) (m : Nat)
    (hacc : (sd_send_command card s SD_LOCK_UNLOCK 0).1 = 0) :
    ∃ sB payload, payload.length = 517 ∧
      Emits (sd_send_command card s SD_LOCK_UNLOCK 0).2 sB payload ∧
      ModifyPWD card s m =
        (if (busy_wait card 0xffff sB).1 ≠ 0 then SDCARD_OK else SDCARD_RWFAIL,
         (busy_wait card 0xffff sB).2) := by
  obtain ⟨sB, he, heq⟩ := ModifyPWD_accepted card s m hacc
  refine ⟨sB, _, ?_, he, heq⟩
  rw [List.length_append, List.length_append, List.length_map, List.length_range]
  rfl

/-- The outcome of an operation that ends in the busy wait started in `sB`. -/
theorem busy_outcome (card : Card) (sB : SD) (r : Int × SD)
    (hr : r = (if (busy_wait card 0xffff sB).1 ≠ 0 then SDCARD_OK else SDCARD_RWFAIL,
      (busy_wait card 0xffff sB).2)) :
    ∃ k v, 1 ≤ k ∧ k ≤ 65535 ∧ v < 256 ∧
      r.2 = sB.emit ((List.replicate (k - 1) 0 ++ [v]).map (fun x => Ev.xchg 0xff x)) ∧
      (v ≠ 0 → r.1 = SDCARD_OK) ∧
      (v = 0 → k = 65535 ∧ r.1 = SDCARD_RWFAIL) := by
  obtain ⟨k, v, hk1, hkn, hv, hst, hnz, hz⟩ := busy_wait_run card 0xffff sB (by decide)
  refine ⟨k, v, hk1, hkn, hv, by rw [hr]; exact hst, ?_, ?_⟩
  · intro h
    have hi : (busy_wait card 0xffff sB).1 ≠ 0 := by rw [hnz h]; omega
    rw [hr]
    exact if_pos hi
  · intro h
    obtain ⟨h1, h2⟩ := hz h
    refine ⟨h1, ?_⟩
    rw [hr]
    exact if_neg (not_not.mpr h2)

/-- C15: the busy poll that ends `WriteCSD` and `ModifyPWD` (entered once the
command was accepted and the payload of 19, respectively 517, exchanges was
sent) makes `k` exchanges of 0xFF with 1 ≤ k ≤ 65535: the first `k - 1`
receive 0 and the `k`-th receives `v`.  When `v` is not 0, so that the first
non-zero byte is the `k`-th, the operation returns success, also for
k = 65535; when `v` is 0 all 65535 exchanges were made and the operation
returns `SDCARD_RWFAIL`. -/
theorem busy_poll_bounded (card : Card) (s : SD) (m : Nat)
    (hW : (sd_send_command card s SD_PROGRAM_CSD 0).1 = 0)
    (hM : (sd_send_command card s SD_LOCK_UNLOCK 0).1 = 0) :
    (∃ sB payload k v, payload.length = 19 ∧
      Emits (sd_send_command card s SD_PROGRAM_CSD 0).2 sB payload ∧
      1 ≤ k ∧ k ≤ 65535 ∧ v < 256 ∧
      (WriteCSD card s).2 =
        sB.emit ((List.replicate (k - 1) 0 ++ [v]).map (fun x => Ev.xchg 0xff x)) ∧
      (v ≠ 0 → (WriteCSD card s).1 = SDCARD_OK) ∧
      (v = 0 → k = 65535 ∧ (WriteCSD card s).1 = SDCARD_RWFAIL)) ∧
    (∃ sB payload k v, payload.length = 517 ∧
      Emits (sd_send_command card s SD_LOCK_UNLOCK 0).2 sB payload ∧
      1 ≤ k ∧ k ≤ 65535 ∧ v < 256 ∧
      (ModifyPWD card s m).2 =
        sB.emit ((List.replicate (k - 1) 0 ++ [v]).map (fun x => Ev.xchg 0xff x)) ∧
      (v ≠ 0 → (ModifyPWD card s m).1 = SDCARD_OK) ∧
      (v = 0 → k = 65535 ∧ (ModifyPWD card s m).1 = SDCARD_RWFAIL)) := by
  constructor
  · obtain ⟨sB, payload, hlen, he, heq⟩ := WriteCSD_busy card s hW
    obtain ⟨k, v, hk1, hkn, hv, hst, hnz, hz⟩ := busy_outcome card sB _ heq
    exact ⟨sB, payload, k, v, hlen, he, hk1, hkn, hv, hst, hnz, hz⟩
  · obtain ⟨sB, payload, hlen, he, heq⟩ := ModifyPWD_busy card s m hM
    obtain ⟨k, v, hk1, hkn, hv, hst, hnz, hz⟩ := busy_outcome card sB _ heq
    exact ⟨sB, payload, k, v, hlen, he, hk1, hkn, hv, hst, hnz, hz⟩

theorem busy_poll_bounded_witness :
    ((sd_send_command (simCard 0) sampleState SD_PROGRAM_CSD 0).1 = 0 ∧
      (sd_send_command (simCard 0) sampleState SD_LOCK_UNLOCK 0).1 = 0) ∧
    (∃ sB payload k v, payload.length = 19 ∧
      Emits (sd_send_command (simCard 0) sampleState SD_PROGRAM_CSD 0).2 sB payload ∧
      1 ≤ k ∧ k ≤ 65535 ∧ v < 256 ∧
      (WriteCSD (simCard 0) sampleState).2 =
        sB.emit ((List.replicate (k - 1) 0 ++ [v]).map (fun x => Ev.xchg 0xff x)) ∧
      (v ≠ 0 → (WriteCSD (simCard 0) sampleState).1 = SDCARD_OK) ∧
      (v = 0 → k = 65535 ∧ (WriteCSD (simCard 0) sampleState).1 = SDCARD_RWFAIL)) ∧
    (∃ sB payload k v, payload.length = 517 ∧
      Emits (sd_send_command zeroCard sampleState SD_LOCK_UNLOCK 0).2 sB payload ∧
      1 ≤ k ∧ k ≤ 65535 ∧ v < 256 ∧
      (ModifyPWD zeroCard sampleState MASK_SET_PWD).2 =
        sB.emit ((List.replicate (k - 1) 0 ++ [v]).map (fun x => Ev.xchg 0xff x)) ∧
      (v ≠ 0 → (ModifyPWD zeroCard sampleState MASK_SET_PWD).1 = SDCARD_OK) ∧
      (v = 0 → k = 65535 ∧ (ModifyPWD zeroCard sampleState MASK_SET_PWD).1 = SDCARD_RWFAIL)) :=
  ⟨⟨by decide, by decide⟩,
   (busy_poll_bounded (simCard 0) sampleState MASK_SET_PWD (by decide) (by decide)).1,
   (busy_poll_bounded zeroCard sampleState MASK_SET_PWD (by decide) (by decide)).2⟩

/-! ## The response poll -/

/-- The response loop entered with `n > 0` iterations makes `front.length + 1`
exchanges of 0xFF, at most `n`: the bytes `front` received first all have the
high bit set, the last byte `v` is the result, and `v` has the high bit set
only if all `n` exchanges were made. -/
theorem poll_response_run (card : Card) (n r : Nat) (s : SD) (hn : 0 < n) :
    ∃ front v, front.length + 1 ≤ n ∧ v < 256 ∧
      (∀ x ∈ front, x &&& 0x80 ≠ 0) ∧
      (v &&& 0x80 ≠ 0 → front.length + 1 = n) ∧
      (poll_response card n r s).1 = v ∧
      (poll_response card n r s).2 =
        s.emit ((front ++ [v]).map (fun x => Ev.xchg 0xff x)) := by
  induction n generalizing r s with
  | zero => omega
  | succ m ih =>
    unfold poll_response
    by_cases hr : (xchg card s 0xff).1 &&& 0x80 = 0
    · rw [if_pos hr]
      exact ⟨[], (xchg card s 0xff).1, by simp, xchg_fst_lt card s 0xff, by simp,
        fun h => absurd hr h, rfl, xchg_snd card s 0xff⟩
    · rw [if_neg hr]
      by_cases hm : m = 0
      · subst hm
        exact ⟨[], (xchg card s 0xff).1, by simp, xchg_fst_lt card s 0xff, by simp,
          fun _ => rfl, rfl, xchg_snd card s 0xff⟩
      · obtain ⟨front, v, hlen, hv, hall, hlast, hres, hst⟩ :=
          ih (xchg card s 0xff).1 (xchg card s 0xff).2 (by omega)
        refine ⟨(xchg card s 0xff).1 :: front, v, by simp; omega, hv, ?_, ?_, hres, ?_⟩
        · intro x hx
          rcases List.mem_cons.mp hx with h | h
          · rw [h]; exact hr
          · exact hall x h
        · intro h
          have := hlast h
          simp
          omega
        · rw [hst, xchg_snd, emit_emit]
          rfl

set_option maxRecDepth 20000 in
theorem high_bit_iff : ∀ w, w < 256 → (w &&& 0x80 ≠ 0 ↔ 128 ≤ w) := by
  decide

theorem toInt8_neg_iff (v : Nat) (hv : v < 256) : toInt8 v < 0 ↔ v &&& 0x80 ≠ 0 := by
  rw [high_bit_iff v hv]
  unfold toInt8
  split <;> omega

/-- C11: for a command byte with the top bit clear, after the frame
`sd_send_command` makes between 1 and 10 exchanges of 0xFF.  The bytes
`front` received before the last one all have the high bit set; the last byte
`v` is what is returned (as an `int8_t`), and it has the high bit set only if
it is the 10th.  So the result is negative, that is has its high bit set,
exactly when all 10 bytes received had the high bit set.  After the poll only
the closing deselect and dummy follow, for commands without a data phase. -/
theorem sd_send_command_poll (card : Card) (s : SD) (c a : Nat) (hc : c < 0x80)
    (ha : a < 2 ^ 32) :
    ∃ front v, 1 ≤ front.length + 1 ∧ front.length + 1 ≤ 10 ∧ v < 256 ∧
      (∀ x ∈ front, x &&& 0x80 ≠ 0) ∧
      (v &&& 0x80 ≠ 0 → front.length + 1 = 10) ∧
      (sd_send_command card s c a).1 = toInt8 v ∧
      (v &&& 0x80 = 0 → (sd_send_command card s c a).1 = (v : Int)) ∧
      ((sd_send_command card s c a).1 < 0 ↔
        (front.length + 1 = 10 ∧ ∀ x ∈ front ++ [v], x &&& 0x80 ≠ 0)) ∧
      (sd_send_command card s c a).2 =
        (if closes_transaction c then
          (xchg card (deselect ((put_frame card s c a).emit
            ((front ++ [v]).map (fun x => Ev.xchg 0xff x)))) 0xff).2
         else (put_frame card s c a).emit ((front ++ [v]).map (fun x => Ev.xchg 0xff x))) := by
  obtain ⟨front, v, hlen, hv, hall, hlast, hres, hst⟩ :=
    poll_response_run card 10 0 (put_frame card s c a) (by decide)
  have h1 : (sd_send_command card s c a).1 = toInt8 v := by
    rw [sd_send_command_plain card s c a hc ha]
    unfold send_frame
    simp only []
    split <;> rw [hres]
  refine ⟨front, v, by omega, hlen, hv, hall, hlast, h1, ?_, ?_, ?_⟩
  · intro h0
    rw [h1]
    have : v < 128 := by
      by_contra hge
      exact ((high_bit_iff v hv).mpr (by omega)) h0
    unfold toInt8
    rw [if_pos (by omega)]
    congr 1
    omega
  · rw [h1, toInt8_neg_iff v hv]
    constructor
    · intro h
      refine ⟨hlast h, ?_⟩
      intro x hx
      rcases List.mem_append.mp hx with hx | hx
      · exact hall x hx
      · rw [List.mem_singleton.mp hx]; exact h
    · intro h
      exact h.2 v (by simp)
  · rw [sd_send_command_plain card s c a hc ha]
    unfold send_frame
    simp only []
    split <;> rw [hst]

theorem sd_send_command_poll_witness :
    (SD_GO_IDLE < 0x80 ∧ 0 < 2 ^ 32) ∧
    ∃ front v, 1 ≤ front.length + 1 ∧ front.length + 1 ≤ 10 ∧ v < 256 ∧
      (∀ x ∈ front, x &&& 0x80 ≠ 0) ∧
      (v &&& 0x80 ≠ 0 → front.length + 1 = 10) ∧
      (sd_send_command absentCard SD.init SD_GO_IDLE 0).1 = toInt8 v ∧
      (v &&& 0x80 = 0 → (sd_send_command absentCard SD.init SD_GO_IDLE 0).1 = (v : Int)) ∧
      ((sd_send_command absentCard SD.init SD_GO_IDLE 0).1 < 0 ↔
        (front.length + 1 = 10 ∧ ∀ x ∈ front ++ [v], x &&& 0x80 ≠ 0)) ∧
      (sd_send_command absentCard SD.init SD_GO_IDLE 0).2 =
        (if closes_transaction SD_GO_IDLE then
          (xchg absentCard (deselect ((put_frame absentCard SD.init SD_GO_IDLE 0).emit
            ((front ++ [v]).map (fun x => Ev.xchg 0xff x)))) 0xff).2
         else (put_frame absentCard SD.init SD_GO_IDLE 0).emit
            ((front ++ [v]).map (fun x => Ev.xchg 0xff x))) :=
  ⟨⟨by decide, by decide⟩,
   sd_send_command_poll absentCard SD.init SD_GO_IDLE 0 (by decide) (by decide)⟩

/-! ## Register reads -/

theorem read_bytes_run (card : Card) (n : Nat) (s : SD) :
    (read_bytes card n s).2 =
      s.emit ((read_bytes card n s).1.map (fun x => Ev.xchg 0xff x)) ∧
    (read_bytes card n s).1.length = n := by
  induction n generalizing s with
  | zero => exact ⟨by simp [read_bytes], rfl⟩
  | succ n ih =>
    unfold read_bytes
    obtain ⟨hst, hl⟩ := ih (xchg card s 0xff).2
    refine ⟨?_, by simp [hl]⟩
    show (read_bytes card n (xchg card s 0xff).2).2 = _
    rw [hst, xchg_snd, emit_emit]
    rfl

theorem Emits.cid {s t : SD} {a : List Out} (h : Emits s t a) : t.cid = s.cid := by
  obtain ⟨es, rfl, _⟩ := h; rfl

/-- The data phase of a 16-byte register read, from the state `w` the token
wait left: the trace grows by the 16 exchanges whose received bytes are
stored with `upd`, and by one more exchange. -/
theorem register_data_phase (card : Card) (w : SD) (upd : SD → List Nat → SD)
    (hupd : ∀ t l, (upd t l).trace = t.trace) :
    (xchg card (upd (read_bytes card 16 w).2 (read_bytes card 16 w).1) 0xff).2.trace =
      w.trace ++ (read_bytes card 16 w).1.map (fun b => Ev.xchg 0xff b) ++
        [Ev.xchg 0xff (xchg card (upd (read_bytes card 16 w).2 (read_bytes card 16 w).1) 0xff).1] := by
  rw [xchg_snd, emit_trace, hupd]
  rw [(read_bytes_run card 16 w).1]
  rfl

/-- C12 (what the code does): when the data-token wait yields 0xFE, `ReadCSD`
returns success with `csd` holding the 16 bytes `bs` received next, in order,
and after them it makes exactly one further exchange, not two; when the token
is anything else it returns `SDCARD_RWFAIL` in the state the token wait left,
where `csd` is all zero.  `ReadCID` does the same with `cid`. -/
theorem register_read_shape (card : Card) (s : SD) :
    ((sd_wait_for_data card
        (sd_send_command card { s with csd := List.replicate 16 0 } SD_SEND_CSD 0).2).1
        = toInt8 0xfe →
      ∃ bs x, bs.length = 16 ∧ (ReadCSD card s).1 = SDCARD_OK ∧ (ReadCSD card s).2.csd = bs ∧
        (ReadCSD card s).2.trace =
          (sd_wait_for_data card
            (sd_send_command card { s with csd := List.replicate 16 0 } SD_SEND_CSD 0).2).2.trace
          ++ bs.map (fun b => Ev.xchg 0xff b) ++ [Ev.xchg 0xff x]) ∧
    ((sd_wait_for_data card
        (sd_send_command card { s with csd := List.replicate 16 0 } SD_SEND_CSD 0).2).1
        ≠ toInt8 0xfe →
      ReadCSD card s = (SDCARD_RWFAIL, (sd_wait_for_data card
        (sd_send_command card { s with csd := List.replicate 16 0 } SD_SEND_CSD 0).2).2) ∧
      (ReadCSD card s).2.csd = List.replicate 16 0) ∧
    ((sd_wait_for_data card
        (sd_send_command card { s with cid := List.replicate 16 0 } SD_SEND_CID 0).2).1
        = toInt8 0xfe →
      ∃ bs x, bs.length = 16 ∧ (ReadCID card s).1 = SDCARD_OK ∧ (ReadCID card s).2.cid = bs ∧
        (ReadCID card s).2.trace =
          (sd_wait_for_data card
            (sd_send_command card { s with cid := List.replicate 16 0 } SD_SEND_CID 0).2).2.trace
          ++ bs.map (fun b => Ev.xchg 0xff b) ++ [Ev.xchg 0xff x]) ∧
    ((sd_wait_for_data card
        (sd_send_command card { s with cid := List.replicate 16 0 } SD_SEND_CID 0).2).1
        ≠ toInt8 0xfe →
      ReadCID card s = (SDCARD_RWFAIL, (sd_wait_for_data card
        (sd_send_command card { s with cid := List.replicate 16 0 } SD_SEND_CID 0).2).2) ∧
      (ReadCID card s).2.cid = List.replicate 16 0) := by
  refine ⟨?_, ?_, ?_, ?_⟩
  · intro h
    have hr : ReadCSD card s = (SDCARD_OK, (xchg card
        { (read_bytes card 16 (sd_wait_for_data card (sd_send_command card
            { s with csd := List.replicate 16 0 } SD_SEND_CSD 0).2).2).2 with
          csd := (read_bytes card 16 (sd_wait_for_data card (sd_send_command card
            { s with csd := List.replicate 16 0 } SD_SEND_CSD 0).2).2).1 } 0xff).2) := by
      unfold ReadCSD
      simp only []
      rw [if_neg (not_not.mpr h)]
    rw [hr]
    exact ⟨_, _, (read_bytes_run card 16 _).2, rfl, rfl,
      register_data_phase card _ (fun t l => { t with csd := l }) (fun _ _ => rfl)⟩
  · intro h
    have hr : ReadCSD card s = (SDCARD_RWFAIL, (sd_wait_for_data card
        (sd_send_command card { s with csd := List.replicate 16 0 } SD_SEND_CSD 0).2).2) := by
      unfold ReadCSD
      simp only []
      rw [if_pos h]
    obtain ⟨o, ho⟩ := emits_sd_send_command_any card { s with csd := List.replicate 16 0 }
      SD_SEND_CSD 0
    obtain ⟨k, _, _, hw⟩ := emits_sd_wait_for_data card
      (sd_send_command card { s with csd := List.replicate 16 0 } SD_SEND_CSD 0).2
    refine ⟨hr, ?_⟩
    rw [hr]
    show (sd_wait_for_data card _).2.csd = _
    rw [hw.csd, ho.csd]
  · intro h
    have hr : ReadCID card s = (SDCARD_OK, (xchg card
        { (read_bytes card 16 (sd_wait_for_data card (sd_send_command card
            { s with cid := List.replicate 16 0 } SD_SEND_CID 0).2).2).2 with
          cid := (read_bytes card 16 (sd_wait_for_data card (sd_send_command card
            { s with cid := List.replicate 16 0 } SD_SEND_CID 0).2).2).1 } 0xff).2) := by
      unfold ReadCID
      simp only []
      rw [if_neg (not_not.mpr h)]
    rw [hr]
    exact ⟨_, _, (read_bytes_run card 16 _).2, rfl, rfl,
      register_data_phase card _ (fun t l => { t with cid := l }) (fun _ _ => rfl)⟩
  · intro h
    have hr : ReadCID card s = (SDCARD_RWFAIL, (sd_wait_for_data card
        (sd_send_command card { s with cid := List.replicate 16 0 } SD_SEND_CID 0).2).2) := by
      unfold ReadCID
      simp only []
      rw [if_pos h]
    obtain ⟨o, ho⟩ := emits_sd_send_command_any card { s with cid := List.replicate 16 0 }
      SD_SEND_CID 0
    obtain ⟨k, _, _, hw⟩ := emits_sd_wait_for_data card
      (sd_send_command card { s with cid := List.replicate 16 0 } SD_SEND_CID 0).2
    refine ⟨hr, ?_⟩
    rw [hr]
    show (sd_wait_for_data card _).2.cid = _
    rw [hw.cid, ho.cid]

theorem register_read_shape_witness :
    (∃ bs x, bs.length = 16 ∧ (ReadCSD tokenCard SD.init).1 = SDCARD_OK ∧
        (ReadCSD tokenCard SD.init).2.csd = bs ∧
        (ReadCSD tokenCard SD.init).2.trace =
          (sd_wait_for_data tokenCard
            (sd_send_command tokenCard { SD.init with csd := List.replicate 16 0 }
              SD_SEND_CSD 0).2).2.trace
          ++ bs.map (fun b => Ev.xchg 0xff b) ++ [Ev.xchg 0xff x]) ∧
    (ReadCID absentCard SD.init = (SDCARD_RWFAIL, (sd_wait_for_data absentCard
        (sd_send_command absentCard { SD.init with cid := List.replicate 16 0 }
          SD_SEND_CID 0).2).2) ∧
      (ReadCID absentCard SD.init).2.cid = List.replicate 16 0) ∧
    sent (ReadCSD tokenCard SD.init).2.trace =
      [Out.cs_high, Out.byte 0xff, Out.cs_low, Out.byte 0xff,
        Out.byte 0x49, Out.byte 0, Out.byte 0, Out.byte 0, Out.byte 0, Out.byte 0x01]
      ++ List.replicate 10 (Out.byte 0xff) ++ List.replicate 1 (Out.byte 0xff)
      ++ List.replicate 16 (Out.byte 0xff) ++ List.replicate 1 (Out.byte 0xff) :=
  ⟨(register_read_shape tokenCard SD.init).1 (by decide),
   (register_read_shape absentCard SD.init).2.2.2 (by decide),
   by decide⟩

/-! ## Temporary lock: idempotence -/

/-- On a bus where GO_IDLE_STATE is never answered with 1, `SDInit` fails
after 16 GO_IDLE frames. -/
theorem SDInit_never_idle (card : Card) (s : SD)
    (h : ∀ t, (sd_send_command card t SD_GO_IDLE 0).1 ≠ 1) :
    (SDInit card s).1 = SDCARD_NO_DETECT ∧
    Run s (SDInit card s).2 (List.replicate 16 (cmd_frame SD_GO_IDLE 0)) := by
  have e := ((run_set_sdtype s SDTYPE_UNKNOWN).seq (run_deselect _)).seq
    (run_burn card 10 _)
  obtain ⟨hne, _, hrun⟩ := go_idle_loop_never card h 0x10 0
    (burn card 10 (deselect { s with sdtype := SDTYPE_UNKNOWN })) (by decide)
  have hres : SDInit card s = (SDCARD_NO_DETECT,
      (go_idle_loop card 0x10 0
        (burn card 10 (deselect { s with sdtype := SDTYPE_UNKNOWN }))).2) := by
    unfold SDInit
    simp only []
    rw [if_pos hne]
  rw [hres]
  exact ⟨rfl, e.seq hrun⟩

/-- When the previous scan found no switch and this one finds one,
`ProcessSwitch` runs `SDInit`, blinks on failure, and dispatches the action
whatever the status was. -/
theorem ProcessSwitch_acts (card : Card) (addr0 sw : Nat) (s : SD)
    (hprev : s.prev_sw = SW_NONE) (hne : sw % 256 ≠ SW_NONE) :
    ProcessSwitch card addr0 sw s =
      { dispatch card addr0 (sw % 256)
          (if toUInt8 (SDInit card s).1 ≠ 0 then BlinkLED PATTERN_NO_DETECT (SDInit card s).2
           else (SDInit card s).2) with prev_sw := sw % 256 } := by
  unfold ProcessSwitch
  simp only []
  rw [if_pos ⟨by rw [hprev]; exact hne, hprev⟩]

theorem blink_loop_trace (n p : Nat) (s : SD) : (blink_loop n p s).trace = s.trace := by
  induction n generalizing p s with
  | zero => rfl
  | succ n ih =>
    unfold blink_loop
    split
    · rw [ih]
    · split
      · rfl
      · rw [ih]

theorem run_BlinkLED (p : Nat) (s : SD) : Run s (BlinkLED p s) [] :=
  Run.rfl_of_trace (blink_loop_trace 32 _ s)

theorem run_ReadCardStatus (card : Card) (s : SD) :
    Run s (ReadCardStatus card s).2 [cmd_frame SD_SEND_STATUS 0] := by
  have h1 := (run_command card s SD_SEND_STATUS 0 (by decide) (by decide)).seq
    (run_xchg card _ 0xff)
  have h2 := h1.seq (Run.rfl_of_trace
    (s := (xchg card (sd_send_command card s SD_SEND_STATUS 0).2 0xff).2)
    (t := { (xchg card (sd_send_command card s SD_SEND_STATUS 0).2 0xff).2 with
      cardstatus := [toUInt8 (sd_send_command card s SD_SEND_STATUS 0).1,
        (xchg card (sd_send_command card s SD_SEND_STATUS 0).2 0xff).1] }) rfl)
  exact h2.seq (run_xchg card _ 0xff)

theorem absent_locked (s : SD) : card_locked (ReadCardStatus absentCard s).2 = true := by
  have h : (ReadCardStatus absentCard s).2.cardstatus =
      [toUInt8 (sd_send_command absentCard s SD_SEND_STATUS 0).1, 0xff] := rfl
  unfold card_locked
  rw [h]
  show decide ((0xff : Nat) &&& 1 ≠ 0) = true
  decide

theorem dispatch_pwd_check_absent (addr0 : Nat) (s : SD) :
    dispatch absentCard addr0 SW_PWD_CHECK s =
      { (ReadCardStatus absentCard (leds_off s)).2 with lock_led := true } := by
  unfold dispatch
  rw [if_neg (by decide), if_neg (by decide), if_neg (by decide), if_neg (by decide),
    if_neg (by decide), if_neg (by decide), if_neg (by decide), if_pos rfl]
  simp only [absent_locked (leds_off s)]
  rfl


theorem run_pwd_check_absent (addr0 : Nat) (s : SD) :
    Run s (dispatch absentCard addr0 SW_PWD_CHECK s) [cmd_frame SD_SEND_STATUS 0] := by
  rw [dispatch_pwd_check_absent]
  have h1 : Run s (leds_off s) [] := Run.rfl_of_trace rfl
  have h2 := h1.seq (run_ReadCardStatus absentCard (leds_off s))
  have h3 : Run (ReadCardStatus absentCard (leds_off s)).2
      { (ReadCardStatus absentCard (leds_off s)).2 with lock_led := true } [] :=
    Run.rfl_of_trace rfl
  exact h2.seq h3

/-- With no card on the bus and the password-check switch pressed,
`ProcessSwitch` puts the 16 GO_IDLE frames of the failed `SDInit` on the bus
and then the SEND_STATUS frame of `ReadCardStatus`. -/
theorem run_ProcessSwitch_pwd_check (addr0 sw : Nat) (s : SD)
    (hprev : s.prev_sw = SW_NONE) (hsw : sw % 256 = SW_PWD_CHECK) :
    Run s (ProcessSwitch absentCard addr0 sw s)
      (List.replicate 16 (cmd_frame SD_GO_IDLE 0) ++ [cmd_frame SD_SEND_STATUS 0]) := by
  have hi := SDInit_never_idle absentCard s absent_never_idle
  have hne : sw % 256 ≠ SW_NONE := by rw [hsw]; decide
  rw [ProcessSwitch_acts absentCard addr0 sw s hprev hne, hi.1, if_pos (by decide), hsw]
  have h1 := hi.2.seq (run_BlinkLED PATTERN_NO_DETECT (SDInit absentCard s).2)
  have h2 := h1.seq (run_pwd_check_absent addr0 _)
  have h3 : Run (dispatch absentCard addr0 SW_PWD_CHECK
        (BlinkLED PATTERN_NO_DETECT (SDInit absentCard s).2))
      { dispatch absentCard addr0 SW_PWD_CHECK
          (BlinkLED PATTERN_NO_DETECT (SDInit absentCard s).2) with prev_sw := SW_PWD_CHECK } [] :=
    Run.rfl_of_trace rfl
  have h4 := h2.seq h3
  rw [List.append_nil, List.append_nil] at h4
  exact h4

theorem set_lock_prev (x : SD) (v : Nat) :
    { { x with lock_led := true } with prev_sw := v } = { x with lock_led := true, prev_sw := v } :=
  rfl

/-- The result of the password-check action with no card on the bus. -/
theorem ProcessSwitch_pwd_check_absent (addr0 sw : Nat) (s : SD)
    (hprev : s.prev_sw = SW_NONE) (hsw : sw % 256 = SW_PWD_CHECK) :
    ProcessSwitch absentCard addr0 sw s =
      { (ReadCardStatus absentCard
          (leds_off (BlinkLED PATTERN_NO_DETECT (SDInit absentCard s).2))).2 with
        lock_led := true, prev_sw := SW_PWD_CHECK } := by
  have hi := SDInit_never_idle absentCard s absent_never_idle
  have hne : sw % 256 ≠ SW_NONE := by rw [hsw]; decide
  rw [ProcessSwitch_acts absentCard addr0 sw s hprev hne, hi.1, if_pos (by decide), hsw]
  have hd := dispatch_pwd_check_absent addr0 (BlinkLED PATTERN_NO_DETECT (SDInit absentCard s).2)
  generalize dispatch absentCard addr0 SW_PWD_CHECK
    (BlinkLED PATTERN_NO_DETECT (SDInit absentCard s).2) = d at hd ⊢
  generalize (ReadCardStatus absentCard
    (leds_off (BlinkLED PATTERN_NO_DETECT (SDInit absentCard s).2))).2 = x at hd ⊢
  subst hd
  exact set_lock_prev x SW_PWD_CHECK

/-- C13 (amended): with no card on the bus (every exchange returns 0xFF), for
every switch value other than `SW_NONE` seen after an idle scan, `SDInit`
returns `SDCARD_NO_DETECT` having put only its 16 GO_IDLE frames on the bus, and
`ProcessSwitch`, which has no test of that status around the handlers, blinks
the no-detect pattern and then runs the handler of the action on the state
`SDInit` left, recording the switch.  For the password-check switch the bus
therefore carries the 16 GO_IDLE frames followed by the SEND_STATUS frame of
`ReadCardStatus`. -/
theorem ProcessSwitch_absent (addr0 sw : Nat) (s : SD)
    (hprev : s.prev_sw = SW_NONE) (hne : sw % 256 ≠ SW_NONE) :
    (SDInit absentCard s).1 = SDCARD_NO_DETECT ∧
    Run s (SDInit absentCard s).2 (List.replicate 16
      [Out.byte 0x40, Out.byte 0, Out.byte 0, Out.byte 0, Out.byte 0, Out.byte 0x95]) ∧
    ProcessSwitch absentCard addr0 sw s =
      { dispatch absentCard addr0 (sw % 256)
          (BlinkLED PATTERN_NO_DETECT (SDInit absentCard s).2) with prev_sw := sw % 256 } ∧
    (sw % 256 = SW_PWD_CHECK →
      ProcessSwitch absentCard addr0 sw s =
        { (ReadCardStatus absentCard
            (leds_off (BlinkLED PATTERN_NO_DETECT (SDInit absentCard s).2))).2 with
          lock_led := true, prev_sw := SW_PWD_CHECK } ∧
      Run s (ProcessSwitch absentCard addr0 sw s) (List.replicate 16
        [Out.byte 0x40, Out.byte 0, Out.byte 0, Out.byte 0, Out.byte 0, Out.byte 0x95] ++
        [[Out.byte 0x4d, Out.byte 0, Out.byte 0, Out.byte 0, Out.byte 0, Out.byte 0x01]])) := by
  have hi := SDInit_never_idle absentCard s absent_never_idle
  have hacts : ProcessSwitch absentCard addr0 sw s =
      { dispatch absentCard addr0 (sw % 256)
          (BlinkLED PATTERN_NO_DETECT (SDInit absentCard s).2) with prev_sw := sw % 256 } := by
    rw [ProcessSwitch_acts absentCard addr0 sw s hprev hne, hi.1, if_pos (by decide)]
  exact ⟨hi.1, hi.2, hacts, fun hsw => ⟨ProcessSwitch_pwd_check_absent addr0 sw s hprev hsw,
    run_ProcessSwitch_pwd_check addr0 sw s hprev hsw⟩⟩

theorem ProcessSwitch_absent_witness :
    (SDInit absentCard idleState).1 = SDCARD_NO_DETECT ∧
    Run idleState (SDInit absentCard idleState).2 (List.replicate 16
      [Out.byte 0x40, Out.byte 0, Out.byte 0, Out.byte 0, Out.byte 0, Out.byte 0x95]) ∧
    ProcessSwitch absentCard 0 SW_READBLK idleState =
      { dispatch absentCard 0 (SW_READBLK % 256)
          (BlinkLED PATTERN_NO_DETECT (SDInit absentCard idleState).2) with
        prev_sw := SW_READBLK % 256 } :=
  have h := ProcessSwitch_absent 0 SW_READBLK idleState rfl (by decide)
  ⟨h.1, h.2.1, h.2.2.1⟩

/-- C13 (counterexample): with no card on the bus and the password-check
switch pressed after an idle scan, `SDInit` returns `SDCARD_NO_DETECT`, a non-OK
status, and `ProcessSwitch` still calls `ReadCardStatus`: its result is the
state `ReadCardStatus` leaves, with the lock LED lit, and after the 16 GO_IDLE
frames of `SDInit` the bus carries a SEND_STATUS frame (0x4D 0 0 0 0 0x01). -/
theorem ProcessSwitch_reads_after_failed_init :
    (SDInit absentCard idleState).1 = SDCARD_NO_DETECT ∧
    SDCARD_NO_DETECT ≠ SDCARD_OK ∧
    ProcessSwitch absentCard 0 SW_PWD_CHECK idleState =
      { (ReadCardStatus absentCard
          (leds_off (BlinkLED PATTERN_NO_DETECT (SDInit absentCard idleState).2))).2 with
        lock_led := true, prev_sw := SW_PWD_CHECK } ∧
    Run idleState (ProcessSwitch absentCard 0 SW_PWD_CHECK idleState) (List.replicate 16
      [Out.byte 0x40, Out.byte 0, Out.byte 0, Out.byte 0, Out.byte 0, Out.byte 0x95] ++
      [[Out.byte 0x4d, Out.byte 0, Out.byte 0, Out.byte 0, Out.byte 0, Out.byte 0x01]]) := by
  have hi := SDInit_never_idle absentCard idleState absent_never_idle
  have hprev : idleState.prev_sw = SW_NONE := rfl
  have hsw : SW_PWD_CHECK % 256 = SW_PWD_CHECK := rfl
  exact ⟨hi.1, by decide, ProcessSwitch_pwd_check_absent 0 SW_PWD_CHECK idleState hprev hsw,
    run_ProcessSwitch_pwd_check 0 SW_PWD_CHECK idleState hprev hsw⟩

/-! ## Two successive temporary-lock actions -/

end SDLocker
